import Mathlib

/-!
Verification development for the in-memory YAML tree model of
src/src/c4/yml/tree.cpp (rapidyaml fork).  The tree is shallowly embedded:
node records live in a flat store addressed by integer handles, the scalar
arena is a heap of character buffers addressed by buffer ids, and every
C++ member function of Tree is translated into a state-passing Lean
function.  Loops over NONE-terminated sibling chains and recursive
operations take an explicit fuel argument.
-/

set_option linter.unusedVariables false

namespace Ryml

/-- The sentinel handle: size_t(-1) in the C++ source. -/
def NONE : Nat := 18446744073709551615

/-- The npos sentinel used by the reference resolver records (same value). -/
def npos : Nat := NONE

/-- Modelled from the spec (§3.2): the node-type bitmask values.  The enum
itself lives in node.hpp which is not under src/; the bit layout follows the
kinds and modifier bits the spec lists (VAL, KEY, MAP, SEQ, DOC, STREAM,
KEYREF/VALREF and the key/val anchor presence bits), with STREAM sharing the
SEQ bit as type_str's distinct STREAM case requires. -/
def VAL : Nat := 1
def KEY : Nat := 2
def MAP : Nat := 4
def SEQ : Nat := 8
def DOC : Nat := 16
def STREAM : Nat := 40
def KEYREF : Nat := 64
def VALREF : Nat := 128
def KEYANCH : Nat := 256
def VALANCH : Nat := 512
def NOTYPE : Nat := 0
def KEYVAL : Nat := 3
def KEYMAP : Nat := 6
def KEYSEQ : Nat := 10
def DOCMAP : Nat := 20
def DOCSEQ : Nat := 24

/-- The four anchor/ref modifier bits together. -/
def REFMASK : Nat := 960

/-- Test of a bitmask against a node type word. -/
def bit (x m : Nat) : Bool := x &&& m != 0

/-- A character span (csubstr): either a view of externally owned memory
(carrying its characters directly, since external buffers never move), or a
view into an arena buffer identified by a buffer id, an offset and a length.
The C++ code distinguishes the two by a pointer-range test; buffer identity
plays the role of the address range here. -/
inductive Span where
  | lit (s : List Char)
  | arena (buf off len : Nat)
deriving DecidableEq, Repr

/-- An empty external span, the result of csubstr::clear(). -/
def Span.empty : Span := .lit []

/-- Modelled from the spec (§3.1): a Scalar bundles three character spans:
the textual value, the YAML tag and the anchor name.  The struct itself is
declared in tree.hpp, which is not under src/. -/
structure NodeScalar where
  tag : Span
  scalar : Span
  anchor : Span
deriving DecidableEq, Repr

/-- NodeScalar::clear(): all three spans empty. -/
def NodeScalar.empty : NodeScalar := ⟨Span.empty, Span.empty, Span.empty⟩

/-- Conversion csubstr -> NodeScalar used by the to_* transitions
(m_val = val assigns a bare scalar, leaving tag and anchor empty). -/
def NodeScalar.ofSpan (s : Span) : NodeScalar := ⟨Span.empty, s, Span.empty⟩

/-- Modelled from the spec (§3.2): one node record.  The struct is declared
in tree.hpp (not under src/); the fields are exactly the ones the spec
lists and tree.cpp manipulates. -/
structure NodeData where
  m_type : Nat
  m_key : NodeScalar
  m_val : NodeScalar
  m_parent : Nat
  m_first_child : Nat
  m_last_child : Nat
  m_prev_sibling : Nat
  m_next_sibling : Nat
deriving DecidableEq, Repr

/-- A memset-zeroed node record (all bytes 0: empty spans, zero handles). -/
def zeroNode : NodeData :=
  { m_type := 0, m_key := NodeScalar.empty, m_val := NodeScalar.empty,
    m_parent := 0, m_first_child := 0, m_last_child := 0,
    m_prev_sibling := 0, m_next_sibling := 0 }

instance : Inhabited NodeData := ⟨zeroNode⟩

/-- NodeData::is_val (node.hpp, not under src/): a keyless leaf scalar. -/
def NodeData.is_val (d : NodeData) : Bool := d.m_type &&& KEYVAL == VAL

/-- The tree state.  m_buf is the flat node store as a total function from
handles, valid on [0, m_cap); m_cap = 0 models m_buf == nullptr.  The arena
is a buffer id into the heap map (0 = null); heap maps live buffer ids to
their full character contents, freed or never-allocated ids to none;
next_buf is the allocator's fresh-id counter. -/
structure Tree where
  m_cap : Nat
  nbuf : Nat → NodeData
  m_size : Nat
  m_free_head : Nat
  m_free_tail : Nat
  m_arena : Nat
  m_arena_len : Nat
  m_arena_pos : Nat
  heap : Nat → Option (List Char)
  next_buf : Nat

/-- A default-constructed Tree (Tree::Tree(Allocator const&)). -/
def freshTree : Tree :=
  { m_cap := 0, nbuf := fun _ => zeroNode, m_size := 0,
    m_free_head := NONE, m_free_tail := NONE,
    m_arena := 0, m_arena_len := 0, m_arena_pos := 0,
    heap := fun _ => none, next_buf := 1 }

/-- Read a node record (Tree::_p / Tree::get).  Out-of-range reads return
whatever junk the function holds there, like reading raw memory. -/
def Tree.get (t : Tree) (i : Nat) : NodeData := t.nbuf i

/-- Write a node record at a handle. -/
def Tree.setN (t : Tree) (i : Nat) (d : NodeData) : Tree :=
  { t with nbuf := fun j => if j = i then d else t.nbuf j }

/-- Update a node record in place. -/
def Tree.upd (t : Tree) (i : Nat) (f : NodeData → NodeData) : Tree :=
  t.setN i (f (t.get i))

/-- Field accessors of tree.hpp (trivial inline readers). -/
def Tree.parent (t : Tree) (i : Nat) : Nat := (t.get i).m_parent
def Tree.first_child (t : Tree) (i : Nat) : Nat := (t.get i).m_first_child
def Tree.last_child (t : Tree) (i : Nat) : Nat := (t.get i).m_last_child
def Tree.prev_sibling (t : Tree) (i : Nat) : Nat := (t.get i).m_prev_sibling
def Tree.next_sibling (t : Tree) (i : Nat) : Nat := (t.get i).m_next_sibling
def Tree.type_of (t : Tree) (i : Nat) : Nat := (t.get i).m_type

/-- Tree::root_id(): the root is always handle 0. -/
def Tree.root_id : Nat := 0

/-- Read the characters a span denotes.  A span into a freed arena buffer
reads none (dangling view). -/
def Tree.readSpan (t : Tree) : Span → Option (List Char)
  | .lit s => some s
  | .arena b o l => (t.heap b).map (fun c => (c.drop o).take l)

/-- Content of a node's key scalar (Tree::key). -/
def Tree.keyRead (t : Tree) (i : Nat) : Option (List Char) :=
  t.readSpan (t.get i).m_key.scalar

/-- Content of a node's val scalar (Tree::val). -/
def Tree.valRead (t : Tree) (i : Nat) : Option (List Char) :=
  t.readSpan (t.get i).m_val.scalar

/-- Type predicates from node.hpp / tree.hpp (not under src/), following
the spec's bitmask reading (§3.2). -/
def Tree.is_map (t : Tree) (i : Nat) : Bool := bit (t.type_of i) MAP
def Tree.is_seq (t : Tree) (i : Nat) : Bool := bit (t.type_of i) SEQ
def Tree.has_key (t : Tree) (i : Nat) : Bool := bit (t.type_of i) KEY
def Tree.has_val (t : Tree) (i : Nat) : Bool := bit (t.type_of i) VAL
def Tree.is_keyval (t : Tree) (i : Nat) : Bool := t.has_key i && t.has_val i
def Tree.is_key_ref (t : Tree) (i : Nat) : Bool := bit (t.type_of i) KEYREF
def Tree.is_val_ref (t : Tree) (i : Nat) : Bool := bit (t.type_of i) VALREF
def Tree.has_key_anchor (t : Tree) (i : Nat) : Bool := bit (t.type_of i) KEYANCH
def Tree.has_val_anchor (t : Tree) (i : Nat) : Bool := bit (t.type_of i) VALANCH

/-- Modelled from the spec: Tree::has_anchor(node, a) lives in tree.hpp
(not under src/); per the data model an anchor name is carried by the key
or the val scalar, and the resolver's lookup compares it for equality with
the alias name. -/
def Tree.has_anchor (t : Tree) (i : Nat) (a : List Char) : Bool :=
  t.readSpan (t.get i).m_key.anchor == some a
    || t.readSpan (t.get i).m_val.anchor == some a

/-- Modelled from the spec: Tree::_clear(i) is declared in tree.hpp (not
under src/).  Section 3.5 has claim zero-fill the record and return NOTYPE;
the ordering _free_list_add before _clear inside Tree::_release
(tree.cpp:262-264) additionally forces _clear to leave the two sibling
links untouched, since they have just been threaded into the free list. -/
def Tree._clear (t : Tree) (i : Nat) : Tree :=
  t.upd i fun n =>
    { n with m_type := NOTYPE, m_key := NodeScalar.empty, m_val := NodeScalar.empty,
             m_parent := NONE, m_first_child := NONE, m_last_child := NONE }

/-- Size_t subtraction i - 1 (wraps to NONE at 0, as in _clear_range's
first iteration when first = 0). -/
def sub1 (i : Nat) : Nat := if i = 0 then NONE else i - 1

/-- Tree::_clear_range (tree.cpp:242-255): memset the range, clear each
record, thread the range as a sibling chain, terminate the last link. -/
def Tree._clear_range (t : Tree) (first num : Nat) : Tree :=
  if num = 0 then t
  else
    let t := (List.range num).foldl (fun t k => t.setN (first + k) zeroNode) t
    let t := (List.range num).foldl
      (fun t k =>
        let i := first + k
        let t := t._clear i
        t.upd i fun n => { n with m_prev_sibling := sub1 i, m_next_sibling := i + 1 }) t
    t.upd (first + num - 1) fun n => { n with m_next_sibling := NONE }

/-- The non-growing body of Tree::_claim (tree.cpp:310-326): pop the free
list head, bump size, clear the popped record, return its handle.
Tree::_claim's growth check is in Tree._claim below; call sites inside
reserve and clear reach this body directly because they have just stocked
the free list (free_head != NONE and the buffer exists). -/
def Tree._claim_pop (t : Tree) : Nat × Tree :=
  let ichild := t.m_free_head
  let child := t.get ichild
  let t := { t with m_size := t.m_size + 1, m_free_head := child.m_next_sibling }
  let t := if t.m_free_head = NONE then { t with m_free_tail := NONE } else t
  let t := t._clear ichild
  (ichild, t)

/-- Tree::_set_hierarchy (tree.cpp:330-387). -/
def Tree._set_hierarchy (t : Tree) (ichild iparent iprev : Nat) : Tree :=
  let t := t.upd ichild fun c =>
    { c with m_parent := iparent, m_prev_sibling := NONE, m_next_sibling := NONE }
  if iparent = NONE then t
  else
    let inext := if iprev != NONE then t.next_sibling iprev else t.first_child iparent
    let t :=
      if iprev != NONE then
        let t := t.upd ichild fun c => { c with m_prev_sibling := iprev }
        t.upd iprev fun p => { p with m_next_sibling := ichild }
      else t
    let t :=
      if inext != NONE then
        let t := t.upd ichild fun c => { c with m_next_sibling := inext }
        t.upd inext fun n => { n with m_prev_sibling := ichild }
      else t
    if t.first_child iparent = NONE then
      t.upd iparent fun p => { p with m_first_child := ichild, m_last_child := ichild }
    else
      let t :=
        if t.next_sibling ichild = t.first_child iparent then
          t.upd iparent fun p => { p with m_first_child := ichild }
        else t
      let t :=
        if t.prev_sibling ichild = t.last_child iparent then
          t.upd iparent fun p => { p with m_last_child := ichild }
        else t
      t

/-- Tree::_rem_hierarchy (tree.cpp:390-421): patch the parent's extremes
and the neighbours' links; the node's own fields are not touched. -/
def Tree._rem_hierarchy (t : Tree) (i : Nat) : Tree :=
  let t :=
    if (t.get i).m_parent != NONE then
      let ip := (t.get i).m_parent
      let t :=
        if (t.get ip).m_first_child = i then
          t.upd ip fun p => { p with m_first_child := (t.get i).m_next_sibling }
        else t
      let t :=
        if (t.get ip).m_last_child = i then
          t.upd ip fun p => { p with m_last_child := (t.get i).m_prev_sibling }
        else t
      t
    else t
  let t :=
    if (t.get i).m_prev_sibling != NONE then
      t.upd (t.get i).m_prev_sibling fun p => { p with m_next_sibling := (t.get i).m_next_sibling }
    else t
  let t :=
    if (t.get i).m_next_sibling != NONE then
      t.upd (t.get i).m_next_sibling fun n => { n with m_prev_sibling := (t.get i).m_prev_sibling }
    else t
  t

/-- Tree::_free_list_add (tree.cpp:271-288): push slot i on the free list
head. -/
def Tree._free_list_add (t : Tree) (i : Nat) : Tree :=
  let t := t.upd i fun w =>
    { w with m_parent := NONE, m_next_sibling := t.m_free_head, m_prev_sibling := NONE }
  let t :=
    if t.m_free_head != NONE then
      t.upd t.m_free_head fun h => { h with m_prev_sibling := i }
    else t
  let t := { t with m_free_head := i }
  if t.m_free_tail = NONE then { t with m_free_tail := t.m_free_head } else t

/-- Tree::_free_list_rem (tree.cpp:290-297). -/
def Tree._free_list_rem (t : Tree) (i : Nat) : Tree :=
  let t :=
    if t.m_free_head = i then { t with m_free_head := (t.get i).m_next_sibling } else t
  t._rem_hierarchy i

/-- Tree::_release (tree.cpp:258-267). -/
def Tree._release (t : Tree) (i : Nat) : Tree :=
  let t := t._rem_hierarchy i
  let t := t._free_list_add i
  let t := t._clear i
  { t with m_size := t.m_size - 1 }

/-- Tree::_claim_root (tree.cpp:234-239): claim (necessarily handle 0 on
the stocked free list) and set it up as the root.  The inner _claim call
is the non-growing body: at both call sites (reserve, clear) the free list
has just been stocked. -/
def Tree._claim_root (t : Tree) : Tree :=
  let rt := t._claim_pop
  rt.2._set_hierarchy rt.1 NONE NONE

/-- The node part of Tree::reserve (tree.cpp:171-199).  The stitching write
m_buf[m_free_tail].m_next_sibling = m_cap happens against the old buffer;
when m_free_tail is out of range it lands beyond the allocation and is lost
when the contents are copied to the new buffer, which the functional
reallocation below reproduces by rebuilding the store from the old prefix. -/
def Tree.reserveNodes (t : Tree) (cap : Nat) : Tree :=
  if cap > t.m_cap then
    let t :=
      if t.m_free_head = NONE then
        { t with m_free_head := t.m_cap, m_free_tail := cap }
      else
        t.upd t.m_free_tail fun n => { n with m_next_sibling := t.m_cap }
    let old := t
    let t := { t with m_cap := cap,
                      nbuf := fun i => if i < old.m_cap then old.nbuf i else zeroNode }
    let t := t._clear_range old.m_cap (cap - old.m_cap)
    if t.m_size = 0 then t._claim_root else t
  else t

/-- Tree::_relocate's span rewriting (tree.cpp:159-165): every key/val
scalar and tag span lying in the current arena is redirected to the same
offset and length in the next buffer.  Anchor spans are not visited. -/
def Tree.in_arena (t : Tree) : Span → Bool
  | .lit _ => false
  | .arena b _ _ => b == t.m_arena

/-- The relocated image of one span (Tree::_relocated). -/
def relocSpan (t : Tree) (newid : Nat) (s : Span) : Span :=
  if t.in_arena s then
    match s with
    | .arena _ o l => .arena newid o l
    | .lit c => .lit c
  else s

/-- The node-scan part of Tree::_relocate over the whole store. -/
def Tree._relocate_spans (t : Tree) (newid : Nat) : Tree :=
  { t with nbuf := fun i =>
      let n := t.nbuf i
      { n with
        m_key := { n.m_key with scalar := relocSpan t newid n.m_key.scalar,
                                tag := relocSpan t newid n.m_key.tag },
        m_val := { n.m_val with scalar := relocSpan t newid n.m_val.scalar,
                                tag := relocSpan t newid n.m_val.tag } } }

/-- The arena part of Tree::reserve (tree.cpp:201-213): allocate a fresh
buffer, memcpy the used prefix (the rest is uninitialized, modelled as
blanks), rewrite the four span kinds, free the old buffer. -/
def Tree.reserveArena (t : Tree) (arena_cap : Nat) : Tree :=
  if arena_cap > t.m_arena_len then
    let newid := t.next_buf
    let content :=
      match t.heap t.m_arena with
      | some old => old.take t.m_arena_pos
          ++ List.replicate (arena_cap - t.m_arena_pos) ' '
      | none => List.replicate arena_cap ' '
    let t := if t.m_arena != 0 then t._relocate_spans newid else t
    { t with
      m_arena := newid, m_arena_len := arena_cap,
      heap := fun b => if b = newid then some content
                       else if b = t.m_arena then none else t.heap b,
      next_buf := t.next_buf + 1 }
  else t

/-- Tree::reserve (tree.cpp:169-214): node growth then arena growth. -/
def Tree.reserve (t : Tree) (cap arena_cap : Nat) : Tree :=
  (t.reserveNodes cap).reserveArena arena_cap

/-- Tree::clear (tree.cpp:217-232).  m_buf == nullptr is m_cap = 0. -/
def Tree.clear (t : Tree) : Tree :=
  let t := t._clear_range 0 t.m_cap
  let t := { t with m_size := 0 }
  if t.m_cap != 0 then
    let t := { t with m_free_head := 0, m_free_tail := t.m_cap }
    t._claim_root
  else
    { t with m_free_head := NONE, m_free_tail := NONE }

/-- Tree::_claim (tree.cpp:300-327): grow when the free list is empty or
the buffer is null (doubling, 16 from zero), then pop. -/
def Tree._claim (t : Tree) : Nat × Tree :=
  if t.m_free_head = NONE || t.m_cap = 0 then
    let sz := 2 * t.m_cap
    let sz := if sz = 0 then 16 else sz
    (t.reserveNodes sz)._claim_pop
  else
    t._claim_pop

/-- The parent-rewriting loop at the top of Tree::_swap_hierarchy
(tree.cpp:490-500): every child of src except ia/ib gets parent := newp. -/
def Tree.swapParentLoop : Nat → Tree → Nat → Nat → Nat → Nat → Tree
  | 0, t, _, _, _, _ => t
  | fuel+1, t, i, ia, ib, newp =>
    if i = NONE then t
    else
      let t := if i = ib || i = ia then t else t.upd i fun n => { n with m_parent := newp }
      Tree.swapParentLoop fuel t (t.next_sibling i) ia ib newp

/-- Tree::_swap_hierarchy (tree.cpp:486-627), a statement-by-statement
translation; all reads and writes go through the store so the reference
aliasing of the C++ (pa == pb, pa or pb aliasing a or b) is reproduced. -/
def Tree._swap_hierarchy (t : Tree) (ia ib : Nat) (fuel : Nat) : Tree :=
  if ia = ib then t
  else
    let t := Tree.swapParentLoop fuel t (t.first_child ia) ia ib ib
    let t := Tree.swapParentLoop fuel t (t.first_child ib) ia ib ia
    let ipa := (t.get ia).m_parent
    let ipb := (t.get ib).m_parent
    let t :=
      if ipa = ipb then
        if ((t.get ipa).m_first_child = ib && (t.get ipa).m_last_child = ia)
            || ((t.get ipa).m_first_child = ia && (t.get ipa).m_last_child = ib) then
          t.upd ipa fun p =>
            { p with m_first_child := p.m_last_child, m_last_child := p.m_first_child }
        else
          let c1 := (t.get ipa).m_first_child = ia
          let t := if c1 then t.upd ipa fun p => { p with m_first_child := ib } else t
          let c2 := (t.get ipa).m_last_child = ia
          let t := if c2 then t.upd ipa fun p => { p with m_last_child := ib } else t
          let changed := c1 || c2
          let t :=
            if (t.get ipb).m_first_child = ib && !changed then
              t.upd ipb fun p => { p with m_first_child := ia }
            else t
          let t :=
            if (t.get ipb).m_last_child = ib && !changed then
              t.upd ipb fun p => { p with m_last_child := ia }
            else t
          t
      else
        let t := if (t.get ipa).m_first_child = ia then t.upd ipa fun p => { p with m_first_child := ib } else t
        let t := if (t.get ipa).m_last_child = ia then t.upd ipa fun p => { p with m_last_child := ib } else t
        let t := if (t.get ipb).m_first_child = ib then t.upd ipb fun p => { p with m_first_child := ia } else t
        let t := if (t.get ipb).m_last_child = ib then t.upd ipb fun p => { p with m_last_child := ia } else t
        t
    let fca := (t.get ia).m_first_child
    let fcb := (t.get ib).m_first_child
    let t := t.upd ia fun a => { a with m_first_child := fcb }
    let t := t.upd ib fun b => { b with m_first_child := fca }
    let lca := (t.get ia).m_last_child
    let lcb := (t.get ib).m_last_child
    let t := t.upd ia fun a => { a with m_last_child := lcb }
    let t := t.upd ib fun b => { b with m_last_child := lca }
    let t :=
      if (t.get ia).m_prev_sibling != ib && (t.get ib).m_prev_sibling != ia
          && (t.get ia).m_next_sibling != ib && (t.get ib).m_next_sibling != ia then
        let t :=
          if (t.get ia).m_prev_sibling != NONE && (t.get ia).m_prev_sibling != ib then
            t.upd (t.get ia).m_prev_sibling fun n => { n with m_next_sibling := ib }
          else t
        let t :=
          if (t.get ia).m_next_sibling != NONE && (t.get ia).m_next_sibling != ib then
            t.upd (t.get ia).m_next_sibling fun n => { n with m_prev_sibling := ib }
          else t
        let t :=
          if (t.get ib).m_prev_sibling != NONE && (t.get ib).m_prev_sibling != ia then
            t.upd (t.get ib).m_prev_sibling fun n => { n with m_next_sibling := ia }
          else t
        let t :=
          if (t.get ib).m_next_sibling != NONE && (t.get ib).m_next_sibling != ia then
            t.upd (t.get ib).m_next_sibling fun n => { n with m_prev_sibling := ia }
          else t
        let ps_a := (t.get ia).m_prev_sibling
        let ps_b := (t.get ib).m_prev_sibling
        let t := t.upd ia fun a => { a with m_prev_sibling := ps_b }
        let t := t.upd ib fun b => { b with m_prev_sibling := ps_a }
        let ns_a := (t.get ia).m_next_sibling
        let ns_b := (t.get ib).m_next_sibling
        let t := t.upd ia fun a => { a with m_next_sibling := ns_b }
        let t := t.upd ib fun b => { b with m_next_sibling := ns_a }
        t
      else
        if (t.get ia).m_next_sibling = ib then
          let t :=
            if (t.get ia).m_prev_sibling != NONE then
              t.upd (t.get ia).m_prev_sibling fun n => { n with m_next_sibling := ib }
            else t
          let t :=
            if (t.get ib).m_next_sibling != NONE then
              t.upd (t.get ib).m_next_sibling fun n => { n with m_prev_sibling := ia }
            else t
          let ns := (t.get ib).m_next_sibling
          let t := t.upd ib fun b => { b with m_prev_sibling := (t.get ia).m_prev_sibling }
          let t := t.upd ib fun b => { b with m_next_sibling := ia }
          let t := t.upd ia fun a => { a with m_prev_sibling := ib }
          let t := t.upd ia fun a => { a with m_next_sibling := ns }
          t
        else if (t.get ia).m_prev_sibling = ib then
          let t :=
            if (t.get ib).m_prev_sibling != NONE then
              t.upd (t.get ib).m_prev_sibling fun n => { n with m_next_sibling := ia }
            else t
          let t :=
            if (t.get ia).m_next_sibling != NONE then
              t.upd (t.get ia).m_next_sibling fun n => { n with m_prev_sibling := ib }
            else t
          let ns := (t.get ib).m_prev_sibling
          let t := t.upd ia fun a => { a with m_prev_sibling := (t.get ib).m_prev_sibling }
          let t := t.upd ia fun a => { a with m_next_sibling := ib }
          let t := t.upd ib fun b => { b with m_prev_sibling := ia }
          let t := t.upd ib fun b => { b with m_next_sibling := ns }
          t
        else
          t
    if (t.get ia).m_parent != ib && (t.get ib).m_parent != ia then
      let pa := (t.get ia).m_parent
      let pb := (t.get ib).m_parent
      let t := t.upd ia fun a => { a with m_parent := pb }
      t.upd ib fun b => { b with m_parent := pa }
    else
      if (t.get ia).m_parent = ib && (t.get ib).m_parent != ia then
        let t := t.upd ia fun a => { a with m_parent := (t.get ib).m_parent }
        t.upd ib fun b => { b with m_parent := ia }
      else if (t.get ia).m_parent != ib && (t.get ib).m_parent = ia then
        let t := t.upd ib fun b => { b with m_parent := (t.get ia).m_parent }
        t.upd ia fun a => { a with m_parent := ib }
      else
        t

/-- Tree::_copy_hierarchy (tree.cpp:630-660). -/
def Tree._copy_hierarchy (t : Tree) (dst src : Nat) (fuel : Nat) : Tree :=
  let iprt := (t.get src).m_parent
  let rec go : Nat → Tree → Nat → Tree
    | 0, t, _ => t
    | fuel+1, t, i =>
      if i = NONE then t
      else
        let t := t.upd i fun n => { n with m_parent := dst }
        go fuel t (t.next_sibling i)
  let t := go fuel t (t.get src).m_first_child
  let t :=
    if (t.get src).m_prev_sibling != NONE then
      t.upd (t.get src).m_prev_sibling fun n => { n with m_next_sibling := dst }
    else t
  let t :=
    if (t.get src).m_next_sibling != NONE then
      t.upd (t.get src).m_next_sibling fun n => { n with m_prev_sibling := dst }
    else t
  let t := if (t.get iprt).m_first_child = src then t.upd iprt fun p => { p with m_first_child := dst } else t
  let t := if (t.get iprt).m_last_child = src then t.upd iprt fun p => { p with m_last_child := dst } else t
  let s := t.get src
  t.upd dst fun d =>
    { d with m_parent := s.m_parent, m_first_child := s.m_first_child,
             m_last_child := s.m_last_child, m_prev_sibling := s.m_prev_sibling,
             m_next_sibling := s.m_next_sibling }

/-- Tree::_swap_props (tree.cpp:663-670). -/
def Tree._swap_props (t : Tree) (n m : Nat) : Tree :=
  let dn := t.get n
  let dm := t.get m
  let t := t.upd n fun d => { d with m_type := dm.m_type, m_key := dm.m_key, m_val := dm.m_val }
  t.upd m fun d => { d with m_type := dn.m_type, m_key := dn.m_key, m_val := dn.m_val }

/-- Tree::_copy_props (tree.hpp, not under src/; spec §4.3: bulk copy of
type, key and val). -/
def Tree._copy_props (t : Tree) (dst src : Nat) : Tree :=
  let s := t.get src
  t.upd dst fun d => { d with m_type := s.m_type, m_key := s.m_key, m_val := s.m_val }

/-- Modelled from the spec: Tree::_copy_props_wo_key (tree.hpp, not under
src/); §4.3 and §4.3's duplicate_contents have it copy type and val while
the destination keeps its own key, so the KEY bit of the destination is
preserved. -/
def Tree._copy_props_wo_key (t : Tree) (dst src : Nat) : Tree :=
  let s := t.get src
  t.upd dst fun d =>
    { d with m_type := s.m_type ||| (d.m_type &&& KEY), m_val := s.m_val }

/-- Tree::_swap (tree.cpp:452-483). -/
def Tree._swap (t : Tree) (n m : Nat) (fuel : Nat) : Tree :=
  let tn := t.type_of n
  let tm := t.type_of m
  if tn != NOTYPE && tm != NOTYPE then
    let t := t._swap_props n m
    t._swap_hierarchy n m fuel
  else if tn = NOTYPE && tm != NOTYPE then
    let t := t._copy_props n m
    let t := t._free_list_rem n
    let t := t._copy_hierarchy n m fuel
    let t := t._clear m
    t._free_list_add m
  else if tn != NOTYPE && tm = NOTYPE then
    let t := t._copy_props m n
    let t := t._free_list_rem m
    let t := t._copy_hierarchy m n fuel
    let t := t._clear n
    t._free_list_add n
  else
    t

/-- Tree::move(node, after) (tree.cpp:673-681): re-splice after a sibling. -/
def Tree.move (t : Tree) (node after : Nat) : Tree :=
  let t := t._rem_hierarchy node
  t._set_hierarchy node (t.parent node) after

mutual
/-- Tree::_do_reorder (tree.cpp:431-449).  The C++ in-out node pointer
becomes a returned handle; the child loop re-reads the sibling link after
each recursive call, as the source does. -/
def Tree._do_reorder : Nat → Tree → Nat → Nat → Nat × Nat × Tree
  | 0, t, node, count => (node, count, t)
  | fuel+1, t, node, count =>
    let nt := if node != count then (count, t._swap node count fuel) else (node, t)
    let node := nt.1
    let t := nt.2
    let count := count + 1
    let r := Tree.reorder_loop fuel t (t.first_child node) count
    (node, r.1, r.2)
def Tree.reorder_loop : Nat → Tree → Nat → Nat → Nat × Tree
  | 0, t, _, count => (count, t)
  | fuel+1, t, i, count =>
    if i = NONE then (count, t)
    else
      let r := Tree._do_reorder fuel t i count
      Tree.reorder_loop fuel r.2.2 (r.2.2.next_sibling r.1) r.2.1
end

/-- Tree::reorder (tree.cpp:424-428). -/
def Tree.reorder (t : Tree) (fuel : Nat) : Tree :=
  (Tree._do_reorder fuel t Tree.root_id 0).2.2

mutual
/-- Tree::duplicate (tree.cpp:706-724): claim a copy, copy props, attach,
recurse over the source children chaining by the last accumulator. -/
def Tree.duplicate : Nat → Tree → Nat → Nat → Nat → Nat × Tree
  | 0, t, _, _, _ => (NONE, t)
  | fuel+1, t, node, parent, after =>
    let ct := t._claim
    let copy := ct.1
    let t := ct.2
    let t := t._copy_props copy node
    let t := t._set_hierarchy copy parent after
    let r := Tree.duplicate_loop fuel t (t.first_child node) copy NONE
    (copy, r.2)
termination_by structural fuel _ _ _ _ => fuel
/-- The child loop shared by duplicate (last starts at NONE) and
duplicate_children (last starts at after); returns the last duplicate. -/
def Tree.duplicate_loop : Nat → Tree → Nat → Nat → Nat → Nat × Tree
  | 0, t, _, _, last => (last, t)
  | fuel+1, t, i, parent, last =>
    if i = NONE then (last, t)
    else
      let r := Tree.duplicate fuel t i parent last
      Tree.duplicate_loop fuel r.2 (r.2.next_sibling i) parent r.1
termination_by structural fuel _ _ _ _ => fuel
end

/-- Tree::duplicate_children (tree.cpp:747-760). -/
def Tree.duplicate_children (fuel : Nat) (t : Tree) (node parent after : Nat) : Nat × Tree :=
  Tree.duplicate_loop fuel t (t.first_child node) parent after

/-- Tree::duplicate_contents (tree.cpp:778-784). -/
def Tree.duplicate_contents (fuel : Nat) (t : Tree) (node dst : Nat) : Tree :=
  let t := t._copy_props_wo_key dst node
  (Tree.duplicate_children fuel t node dst NONE).2

/-- Modelled from the spec: Tree::remove lives in tree.hpp (not under
src/); §4.3 has it recursively remove all descendants, then release the
node.  Removing the first child repeatedly until none remain realizes the
recursive removal (each release detaches the child from the chain). -/
def Tree.remove : Nat → Tree → Nat → Tree
  | 0, t, _ => t
  | fuel+1, t, node =>
    if t.first_child node = NONE then t._release node
    else Tree.remove fuel (Tree.remove fuel t (t.first_child node)) node

/-- The after_pos search of Tree::duplicate_children_no_rep
(tree.cpp:796-808): position of target among the children, or NONE. -/
def Tree.posOf : Nat → Tree → Nat → Nat → Nat → Nat
  | 0, _, _, _, _ => NONE
  | fuel+1, t, i, target, icount =>
    if i = NONE then NONE
    else if i = target then icount
    else Tree.posOf fuel t (t.next_sibling i) target (icount + 1)

/-- The repetition search of Tree::duplicate_children_no_rep
(tree.cpp:822-831): first child of the parent whose key equals k, with its
position; (NONE, NONE) when there is none. -/
def Tree.repSearch : Nat → Tree → Nat → Option (List Char) → Nat → Nat × Nat
  | 0, _, _, _, _ => (NONE, NONE)
  | fuel+1, t, j, k, jcount =>
    if j = NONE then (NONE, NONE)
    else if t.keyRead j == k then (j, jcount)
    else Tree.repSearch fuel t (t.next_sibling j) k (jcount + 1)

/-- The per-source-child loop of Tree::duplicate_children_no_rep
(tree.cpp:811-857). -/
def Tree.dcnr_loop : Nat → Tree → Nat → Nat → Nat → Nat → Nat × Tree
  | 0, t, _, _, _, prev => (prev, t)
  | fuel+1, t, i, parent, after_pos, prev =>
    if i = NONE then (prev, t)
    else
      let pt :=
        if t.is_seq parent then
          Tree.duplicate fuel t i parent prev
        else
          let rp := Tree.repSearch fuel t (t.first_child parent) (t.keyRead i) 0
          let rep := rp.1
          let rep_pos := rp.2
          if rep = NONE then
            Tree.duplicate fuel t i parent prev
          else if after_pos != NONE && rep_pos < after_pos then
            let t := Tree.remove fuel t rep
            Tree.duplicate fuel t i parent prev
          else
            if rep != prev then (rep, t.move rep prev) else (prev, t)
      Tree.dcnr_loop fuel pt.2 (pt.2.next_sibling i) parent after_pos pt.1

/-- Tree::duplicate_children_no_rep (tree.cpp:787-860). -/
def Tree.duplicate_children_no_rep (fuel : Nat) (t : Tree) (node parent after : Nat) :
    Nat × Tree :=
  let after_pos :=
    if after != NONE then Tree.posOf fuel t (t.first_child parent) after 0 else NONE
  Tree.dcnr_loop fuel t (t.first_child node) parent after_pos after

/-- Tree::num_children (tree.cpp:1065-1074). -/
def Tree.num_children_loop : Nat → Tree → Nat → Nat → Nat
  | 0, _, _, count => count
  | fuel+1, t, i, count =>
    if i = NONE then count else Tree.num_children_loop fuel t (t.next_sibling i) (count + 1)

/-- Tree::num_children (tree.cpp:1065-1074). -/
def Tree.num_children (fuel : Nat) (t : Tree) (node : Nat) : Nat :=
  if (t.get node).is_val then 0 else Tree.num_children_loop fuel t (t.first_child node) 0

/-- The search loop of Tree::find_child (tree.cpp:1114-1120). -/
def Tree.find_child_loop : Nat → Tree → Nat → List Char → Nat
  | 0, _, _, _ => NONE
  | fuel+1, t, i, name =>
    if i = NONE then NONE
    else if t.readSpan (t.get i).m_key.scalar == some name then i
    else Tree.find_child_loop fuel t (t.next_sibling i) name

/-- Tree::find_child (tree.cpp:1099-1122). -/
def Tree.find_child (fuel : Nat) (t : Tree) (node : Nat) (name : List Char) : Nat :=
  if (t.get node).is_val then NONE
  else if (t.get node).m_first_child = NONE then NONE
  else Tree.find_child_loop fuel t (t.first_child node) name

/-- Tree::_set_flags (tree.hpp, not under src/): assign the type word, as
all the to_* transitions pass a complete kind plus extra flags. -/
def Tree._set_flags (t : Tree) (node f : Nat) : Tree :=
  t.upd node fun n => { n with m_type := f }

/-- Tree::to_val (tree.cpp:1126-1133); m_val = val converts the csubstr to
a NodeScalar with empty tag and anchor. -/
def Tree.to_val (t : Tree) (node : Nat) (v : Span) (more_flags : Nat) : Tree :=
  let t := t._set_flags node (VAL ||| more_flags)
  let t := t.upd node fun n => { n with m_key := NodeScalar.empty }
  t.upd node fun n => { n with m_val := NodeScalar.ofSpan v }

/-- Tree::to_keyval (tree.cpp:1135-1143). -/
def Tree.to_keyval (t : Tree) (node : Nat) (k v : Span) (more_flags : Nat) : Tree :=
  let t := t._set_flags node (KEYVAL ||| more_flags)
  let t := t.upd node fun n => { n with m_key := NodeScalar.ofSpan k }
  t.upd node fun n => { n with m_val := NodeScalar.ofSpan v }

/-- Tree::to_map, keyless overload (tree.cpp:1145-1152). -/
def Tree.to_map (t : Tree) (node : Nat) (more_flags : Nat) : Tree :=
  let t := t._set_flags node (MAP ||| more_flags)
  let t := t.upd node fun n => { n with m_key := NodeScalar.empty }
  t.upd node fun n => { n with m_val := NodeScalar.empty }

/-- Tree::to_seq, keyless overload (tree.cpp:1164-1170). -/
def Tree.to_seq (t : Tree) (node : Nat) (more_flags : Nat) : Tree :=
  let t := t._set_flags node (SEQ ||| more_flags)
  let t := t.upd node fun n => { n with m_key := NodeScalar.empty }
  t.upd node fun n => { n with m_val := NodeScalar.empty }

/-- Tree::to_doc (tree.cpp:1181-1187). -/
def Tree.to_doc (t : Tree) (node : Nat) (more_flags : Nat) : Tree :=
  let t := t._set_flags node (DOC ||| more_flags)
  let t := t.upd node fun n => { n with m_key := NodeScalar.empty }
  t.upd node fun n => { n with m_val := NodeScalar.empty }

/-- Tree::to_stream (tree.cpp:1189-1195). -/
def Tree.to_stream (t : Tree) (node : Nat) (more_flags : Nat) : Tree :=
  let t := t._set_flags node (STREAM ||| more_flags)
  let t := t.upd node fun n => { n with m_key := NodeScalar.empty }
  t.upd node fun n => { n with m_val := NodeScalar.empty }

/-- Modelled from the spec: Tree::rem_anchor_ref lives in tree.hpp (not
under src/); the cleanup pass of resolve uses it to clear the anchor/ref
flags and the anchor names of a node (§4.4).  Type words stay below 1024
throughout the code, so masking within ten bits is exact. -/
def Tree.rem_anchor_ref (t : Tree) (i : Nat) : Tree :=
  t.upd i fun n =>
    { n with m_type := n.m_type &&& (1023 ^^^ REFMASK),
             m_key := { n.m_key with anchor := Span.empty },
             m_val := { n.m_val with anchor := Span.empty } }

/-- One record of detail::ReferenceResolver (tree.cpp:868-876). -/
structure refdata where
  is_ref : Bool
  node : Nat
  prev_anchor : Nat
  target : Nat
  parent_ref : Nat
  parent_ref_sibling : Nat
deriving DecidableEq, Repr

instance : Inhabited refdata := ⟨⟨false, 0, 0, 0, 0, 0⟩⟩

namespace RR

/-- ReferenceResolver::count (tree.cpp:891-903). -/
def countRefs : Nat → Tree → Nat → Nat
  | 0, _, _ => 0
  | fuel+1, t, n =>
    let c := if t.is_key_ref n || t.is_val_ref n
                || t.has_key_anchor n || t.has_val_anchor n then 1 else 0
    c + countChildren fuel t (t.first_child n)
where
  countChildren : Nat → Tree → Nat → Nat
    | 0, _, _ => 0
    | fuel+1, t, ch =>
      if ch = NONE then 0
      else countRefs fuel t ch + countChildren fuel t (t.next_sibling ch)

/-- The per-child push loop of the alias-sequence case of
ReferenceResolver::_store_anchors_and_refs (tree.cpp:936-940). -/
def pushSeqChildren : Nat → Tree → Nat → Nat → List refdata → List refdata
  | 0, _, _, _, acc => acc
  | fuel+1, t, i, n, acc =>
    if i = NONE then acc
    else pushSeqChildren fuel t (t.next_sibling i) n
      (acc ++ [⟨true, i, npos, npos, n, t.next_sibling n⟩])

/-- ReferenceResolver::_store_anchors_and_refs (tree.cpp:930-961),
accumulating pushed records in depth-first pre-order.  In the alias
sequence case the children are pushed and the function returns; the
C4_NEVER_REACH case falls through without a push, as released builds do. -/
def storeAR : Nat → Tree → Nat → List refdata → List refdata
  | 0, _, _, acc => acc
  | fuel+1, t, n, acc =>
    if t.is_key_ref n || t.is_val_ref n || (t.has_key n && t.keyRead n == some ['<', '<']) then
      if t.is_seq n then
        pushSeqChildren fuel t (t.first_child n) n acc
      else
        let acc := if t.has_val n then acc ++ [⟨true, n, npos, npos, NONE, NONE⟩] else acc
        let acc := if t.has_key_anchor n || t.has_val_anchor n then
            acc ++ [⟨false, n, npos, npos, NONE, NONE⟩] else acc
        storeChildren fuel t (t.first_child n) acc
    else
      let acc := if t.has_key_anchor n || t.has_val_anchor n then
          acc ++ [⟨false, n, npos, npos, NONE, NONE⟩] else acc
      storeChildren fuel t (t.first_child n) acc
where
  storeChildren : Nat → Tree → Nat → List refdata → List refdata
    | 0, _, _, acc => acc
    | fuel+1, t, ch, acc =>
      if ch = NONE then acc
      else storeChildren fuel t (t.next_sibling ch) (storeAR fuel t ch acc)

/-- The loop body of the final sweep of ReferenceResolver::store
(tree.cpp:917-927), carrying the running prev_anchor and count. -/
def connectGo (prev_anchor count : Nat) : List refdata → List refdata
  | [] => []
  | rd :: rest =>
    { rd with prev_anchor := prev_anchor }
      :: connectGo (if !rd.is_ref then count else prev_anchor) (count + 1) rest

/-- The final sweep of ReferenceResolver::store (tree.cpp:917-927): link
each record to the nearest earlier anchor record. -/
def connect (refs : List refdata) : List refdata :=
  connectGo npos 0 refs

/-- ReferenceResolver::store (tree.cpp:905-928). -/
def store (fuel : Nat) (t : Tree) : List refdata :=
  let nrefs := countRefs fuel t Tree.root_id
  if nrefs = 0 then []
  else connect (storeAR fuel t Tree.root_id [])

/-- The alias name of a ref node: its val with the leading star dropped
(tree.cpp:966-968). -/
def refnameOf (t : Tree) (refnode : Nat) : List Char :=
  ((t.valRead refnode).getD []).drop 1

/-- The walk of ReferenceResolver::lookup_ (tree.cpp:969-978): follow the
prev_anchor chain; the release build of the C4_NEVER_REACH fallthrough
returns NONE. -/
def lookupWalk : Nat → Tree → List refdata → List Char → refdata → Nat
  | 0, _, _, _, _ => NONE
  | fuel+1, t, refs, refname, ra =>
    if ra.prev_anchor = npos then NONE
    else
      let ra2 := refs.getD ra.prev_anchor default
      if t.has_anchor ra2.node refname then ra2.node
      else lookupWalk fuel t refs refname ra2

/-- ReferenceResolver::lookup_ (tree.cpp:963-979). -/
def lookup_ (fuel : Nat) (t : Tree) (refs : List refdata) (rd : refdata) : Nat :=
  lookupWalk fuel t refs (refnameOf t rd.node) rd

/-- Pass 2 of ReferenceResolver::resolve (tree.cpp:991-996): set each ref
record's target.  The C++ iterates via refs.top(i); the iteration order is
irrelevant because lookup_ never reads a target field. -/
def resolvePass2 (fuel : Nat) (t : Tree) (refs : List refdata) : List refdata :=
  refs.map fun rd => if rd.is_ref then { rd with target := lookup_ fuel t refs rd } else rd

end RR

/-- Pass 3 of Tree::resolve (tree.cpp:1009-1046): materialize each alias
record, tracking the merge cursor across records sharing a parent_ref. -/
def Tree.resolvePass3 (fuel : Nat) (t : Tree) (refs : List refdata) : Tree :=
  (refs.foldl
    (fun st rd =>
      let t := st.1
      let prev_parent_ref := st.2.1
      let prev_parent_ref_after := st.2.2
      if !rd.is_ref then st
      else if rd.parent_ref != NONE then
        let p := t.parent rd.parent_ref
        let after :=
          if prev_parent_ref != rd.parent_ref then rd.parent_ref
          else prev_parent_ref_after
        let r := Tree.duplicate_children_no_rep fuel t rd.target p after
        let t := Tree.remove fuel r.2 rd.node
        (t, rd.parent_ref, r.1)
      else if t.has_key rd.node && t.keyRead rd.node == some ['<', '<'] then
        let p := t.parent rd.node
        let after := t.prev_sibling rd.node
        let r := Tree.duplicate_children_no_rep fuel t rd.target p after
        let t := Tree.remove fuel r.2 rd.node
        (t, prev_parent_ref, prev_parent_ref_after)
      else
        (Tree.duplicate_contents fuel t rd.target rd.node,
         prev_parent_ref, prev_parent_ref_after))
    (t, NONE, NONE)).1

/-- The cleanup pass of Tree::resolve (tree.cpp:1048-1059): clear anchors
and refs on every record's node; remove still-live parent_ref nodes. -/
def Tree.resolveCleanup (fuel : Nat) (t : Tree) (refs : List refdata) : Tree :=
  refs.foldl
    (fun t rd =>
      let t := t.rem_anchor_ref rd.node
      if rd.parent_ref != NONE then
        if t.type_of rd.parent_ref != NOTYPE then Tree.remove fuel t rd.parent_ref else t
      else t)
    t

/-- Tree::resolve (tree.cpp:1002-1061). -/
def Tree.resolve (fuel : Nat) (t : Tree) : Tree :=
  if t.m_size = 0 then t
  else
    let refs := RR.store fuel t
    if refs.isEmpty then t
    else
      let refs := RR.resolvePass2 fuel t refs
      let t := t.resolvePass3 fuel refs
      t.resolveCleanup fuel refs

/-- The NONE-terminated sibling chain starting at a handle. -/
def Tree.chainList : Nat → Tree → Nat → List Nat
  | 0, _, _ => []
  | fuel+1, t, i => if i = NONE then [] else i :: Tree.chainList fuel t (t.next_sibling i)

/-- The children of a node in next_sibling order. -/
def Tree.childrenOf (fuel : Nat) (t : Tree) (n : Nat) : List Nat :=
  Tree.chainList fuel t (t.first_child n)

mutual
/-- Depth-first pre-order traversal from a node. -/
def Tree.preorderList : Nat → Tree → Nat → List Nat
  | 0, _, _ => []
  | fuel+1, t, n => n :: Tree.preorderKids fuel t (t.first_child n)
/-- Pre-order traversal of a sibling chain and its subtrees. -/
def Tree.preorderKids : Nat → Tree → Nat → List Nat
  | 0, _, _ => []
  | fuel+1, t, i =>
    if i = NONE then []
    else Tree.preorderList fuel t i ++ Tree.preorderKids fuel t (t.next_sibling i)
end

/-- Builder used by the concrete scenarios, mirroring how the parser uses
the store: claim a slot, attach it after a sibling, set its type, key and
val (external spans). -/
def Tree.addChild (t : Tree) (parent after ty : Nat) (k v : List Char) : Nat × Tree :=
  let ct := t._claim
  let n := ct.1
  let t := ct.2
  let t := t._set_hierarchy n parent after
  let t := t._set_flags n ty
  let t := t.upd n fun d => { d with
    m_key := NodeScalar.ofSpan (.lit k), m_val := NodeScalar.ofSpan (.lit v) }
  (n, t)

/-- The concrete scenario of spec §8.6 for duplicate_children_no_rep: a
destination map m1 = curly a:1, b:2 and a source map m2 = curly a:9, c:3,
both under the root. -/
def noRepTree : Tree :=
  let t := (freshTree.reserve 16 0).to_map 0 0
  let r1 := t.addChild 0 NONE KEYMAP ['m', '1'] []
  let r2 := r1.2.addChild 0 r1.1 KEYMAP ['m', '2'] []
  let r3 := r2.2.addChild r1.1 NONE KEYVAL ['a'] ['1']
  let r4 := r3.2.addChild r1.1 r3.1 KEYVAL ['b'] ['2']
  let r5 := r4.2.addChild r2.1 NONE KEYVAL ['a'] ['9']
  let r6 := r5.2.addChild r2.1 r5.1 KEYVAL ['c'] ['3']
  r6.2

/-- The key/val contents of a node list. -/
def Tree.kvList (t : Tree) (l : List Nat) : List (Option (List Char) × Option (List Char)) :=
  l.map fun n => (t.keyRead n, t.valRead n)

/-- A root sequence with four value children at slots 1-4, used for the
adjacent-sibling swap scenario. -/
def swapTree : Tree :=
  let t := (freshTree.reserve 16 0).to_seq 0 0
  let r1 := t.addChild 0 NONE VAL [] ['1']
  let r2 := r1.2.addChild 0 1 VAL [] ['2']
  let r3 := r2.2.addChild 0 2 VAL [] ['3']
  let r4 := r3.2.addChild 0 3 VAL [] ['4']
  r4.2

/-- A tree built only through reserve, claim and remove whose free-list
head (slot 3) keeps a stale prev link to the live slot 2: reserve(4)
claims the root; slots 1, 2, 3 are claimed as a chain root - n1 - n2 - n3;
a fourth claim grows the store to 8 and yields slot 4 (a second child of
n1); removing n3 then n2 pushes 3 and 2, and reclaiming slot 2 (as a child
of the node at slot 4) leaves free_head = 3 with 3.prev = 2.  Pre-order is
0, 1, 4, 2. -/
def reorderBugTree : Tree :=
  let t := (freshTree.reserve 4 0).to_seq 0 0
  let r1 := t.addChild 0 NONE SEQ [] ['p']
  let r2 := r1.2.addChild 1 NONE VAL [] ['x']
  let r3 := r2.2.addChild 1 2 VAL [] ['y']
  let r4 := r3.2.addChild 1 3 SEQ [] ['q']
  let t := Tree.remove 20 r4.2 3
  let t := Tree.remove 20 t 2
  let r5 := t.addChild 4 NONE VAL [] ['z']
  r5.2

/-- The concrete scenario for the resolver cleanup: a map with key a
holding an anchored map (anchor x) whose child c carries a nested anchor
y, and a key b whose value is the alias star-x. -/
def anchorTree : Tree :=
  let t := (freshTree.reserve 16 0).to_map 0 0
  let r1 := t.addChild 0 NONE (KEYMAP ||| VALANCH) ['a'] []
  let r2 := r1.2.addChild 1 NONE (KEYVAL ||| VALANCH) ['c'] ['1']
  let r3 := r2.2.addChild 0 1 (KEYVAL ||| VALREF) ['b'] ['*', 'x']
  let t := r3.2
  let t := t.upd 1 fun d => { d with m_val := { d.m_val with anchor := .lit ['x'] } }
  t.upd 2 fun d => { d with m_val := { d.m_val with anchor := .lit ['y'] } }

/-- The concrete scenario for arena relocation: a two-slot tree whose
arena (buffer 1) holds the four characters x y z w, fully used; node 0's
val has its scalar, tag and anchor all pointing into the arena. -/
def arenaTree : Tree :=
  let t := freshTree.reserve 2 0
  let t := { t with m_arena := 1, m_arena_len := 4, m_arena_pos := 4,
                    heap := fun b => if b = 1 then some ['x', 'y', 'z', 'w'] else none,
                    next_buf := 2 }
  t.upd 0 fun d => { d with m_val :=
    { tag := .arena 1 0 2, scalar := .arena 1 2 2, anchor := .arena 1 0 2 } }

/-- Spec-side reading of find_child: the first child in sibling order
whose key scalar reads as the given name, else NONE. -/
def findChildSpec (fuel : Nat) (t : Tree) (node : Nat) (name : List Char) : Nat :=
  ((Tree.childrenOf fuel t node).find? (fun j => t.keyRead j == some name)).getD NONE

/-- Spec-side: index of the nearest record strictly before k that is an
anchor record (is_ref = false), or npos. -/
def lastAnchorIdx (raw : List refdata) : Nat → Nat
  | 0 => npos
  | k+1 => if !(raw.getD k default).is_ref then k else lastAnchorIdx raw k

/-- Spec-side reading of the lookup pass: scanning backward from position
k through the collection-order record list, the node of the first anchor
record whose anchor name equals the alias name, or NONE. -/
def nearestAnchor (t : Tree) (raw : List refdata) (name : List Char) : Nat → Nat
  | 0 => NONE
  | k+1 =>
    if !(raw.getD k default).is_ref && t.has_anchor (raw.getD k default).node name
    then (raw.getD k default).node
    else nearestAnchor t raw name k

/-- Spec-side reading of one map-destination step of
duplicate_children_no_rep when a repetition exists: remove-then-duplicate
when the repetition precedes the insertion position, else move the
existing entry to the cursor (or leave everything alone when it already
is the cursor).  Returns the new cursor and state. -/
def dcnrMergeStep (fuel : Nat) (t : Tree) (i parent after_pos prev : Nat) : Nat × Tree :=
  let rp := Tree.repSearch fuel t (t.first_child parent) (t.keyRead i) 0
  if after_pos != NONE && rp.2 < after_pos then
    let t2 := Tree.remove fuel t rp.1
    Tree.duplicate fuel t2 i parent prev
  else if rp.1 != prev then (rp.1, t.move rp.1 prev)
  else (prev, t)

/-- A node record carries no anchor or reference information: none of the
KEYREF, VALREF, KEYANCH, VALANCH bits and no anchor names. -/
def cleanNode (t : Tree) (i : Nat) : Prop :=
  (t.get i).m_type &&& REFMASK = 0
    ∧ (t.get i).m_key.anchor = Span.empty
    ∧ (t.get i).m_val.anchor = Span.empty

/-- A span is safe across arena growth: external, or (when it points into
the current arena) within the used prefix; its buffer id predates the
allocator's fresh counter. -/
def spanInUsedArena (t : Tree) : Span → Bool
  | .lit _ => true
  | .arena b o l => b < t.next_buf && (b != t.m_arena || o + l ≤ t.m_arena_pos)

/-- Tree states reachable through reserve, claim, release and clear, from
a default-constructed tree.  The requested capacity of a reserve and the
released handle are below the physical bound of size_t(-1), as any
allocation of that extent would fail. -/
inductive Reach : Tree → Prop where
  | fresh : Reach freshTree
  | reserveR (t : Tree) (cap acap : Nat) : Reach t → cap ≠ NONE → Reach (t.reserve cap acap)
  | clearR (t : Tree) : Reach t → Reach t.clear
  | claimR (t : Tree) : Reach t → Reach (t._claim).2
  | releaseR (t : Tree) (i : Nat) : Reach t → i < t.m_cap → i ≠ NONE → Reach (t._release i)

/-- The control fields two tree states may share: free list brackets,
capacity and size. -/
def ctlEq (a b : Tree) : Prop :=
  a.m_free_head = b.m_free_head ∧ a.m_free_tail = b.m_free_tail
    ∧ a.m_cap = b.m_cap ∧ a.m_size = b.m_size

/-- The free-list bracket invariant carried through every reachable state,
with the auxiliary facts its preservation needs: the brackets are NONE
together; the capacity is never the sentinel; an empty tree with a buffer
still has a stocked head; and a bufferless tree is fully pristine. -/
def freeInv (t : Tree) : Prop :=
  (t.m_free_head = NONE ↔ t.m_free_tail = NONE)
    ∧ t.m_cap ≠ NONE
    ∧ (t.m_size = 0 → t.m_cap = 0 ∨ t.m_free_head ≠ NONE)
    ∧ (t.m_cap = 0 → t.m_free_head = NONE ∧ t.m_free_tail = NONE ∧ t.m_size = 0)

/-- Hierarchy fields of one node agree between two states. -/
def hierSame (u t : Tree) (n : Nat) : Prop :=
  (u.get n).m_parent = (t.get n).m_parent
    ∧ (u.get n).m_first_child = (t.get n).m_first_child
    ∧ (u.get n).m_last_child = (t.get n).m_last_child
    ∧ (u.get n).m_prev_sibling = (t.get n).m_prev_sibling
    ∧ (u.get n).m_next_sibling = (t.get n).m_next_sibling

/-- All tree-level fields other than the node store agree. -/
def ctlArenaSame (u t : Tree) : Prop :=
  u.m_cap = t.m_cap ∧ u.m_size = t.m_size
    ∧ u.m_free_head = t.m_free_head ∧ u.m_free_tail = t.m_free_tail
    ∧ u.m_arena = t.m_arena ∧ u.m_arena_len = t.m_arena_len
    ∧ u.m_arena_pos = t.m_arena_pos ∧ u.heap = t.heap ∧ u.next_buf = t.next_buf

theorem find_child_loop_eq (fuel : Nat) :
    ∀ (t : Tree) (i : Nat) (name : List Char),
    Tree.find_child_loop fuel t i name
      = ((Tree.chainList fuel t i).find? (fun j => t.keyRead j == some name)).getD NONE := by
  induction fuel with
  | zero => intro t i name; simp [Tree.find_child_loop, Tree.chainList]
  | succ fuel ih =>
    intro t i name
    by_cases h : i = NONE
    · simp [Tree.find_child_loop, Tree.chainList, h]
    · simp only [Tree.find_child_loop, Tree.chainList, h, if_false, if_neg]
      by_cases hk : (t.keyRead i == some name) = true
      · simp only [Tree.keyRead] at hk
        simp [hk, List.find?_cons_of_pos, Tree.keyRead]
      · simp only [Tree.keyRead] at hk
        rw [if_neg (by simpa using hk)]
        rw [List.find?_cons_of_neg _ (by simpa [Tree.keyRead] using hk)]
        exact ih t (t.next_sibling i) name

/-- C10: find_child returns the handle of the first child of the node, in
next_sibling order, whose key scalar equals the name; it returns NONE when
the node is a leaf VAL node, when it has no children (the empty chain), or
when no child key matches.  The call is a pure read: the embedded function
consumes the state and returns only a handle, so the tree is unchanged by
construction. -/
theorem C10_find_child_spec (fuel : Nat) (t : Tree) (node : Nat) (name : List Char) :
    Tree.find_child fuel t node name
      = if (t.get node).is_val then NONE else findChildSpec fuel t node name := by
  by_cases hv : (t.get node).is_val
  · simp [Tree.find_child, hv]
  · by_cases hf : (t.get node).m_first_child = NONE
    · cases fuel with
      | zero =>
        simp [Tree.find_child, hv, hf, findChildSpec, Tree.childrenOf, Tree.chainList]
      | succ fuel =>
        simp [Tree.find_child, hv, hf, findChildSpec, Tree.childrenOf, Tree.chainList,
              Tree.first_child]
    · simp [Tree.find_child, hv, hf, findChildSpec, Tree.childrenOf, Tree.first_child,
            find_child_loop_eq]

/-- C9: every childless type transition (to_val, to_keyval, to_map,
to_seq, to_doc, to_stream) leaves every other node record, the transitioned
node's five hierarchy links, and all tree-level state unchanged; only the
node's type, key and val change, and the keyless transitions clear the key
to empty. -/
theorem C9_to_transitions_frame (t : Tree) (node : Nat) (k v : Span) (flags : Nat) :
    (∀ j, j ≠ node →
      (t.to_val node v flags).get j = t.get j
      ∧ (t.to_keyval node k v flags).get j = t.get j
      ∧ (t.to_map node flags).get j = t.get j
      ∧ (t.to_seq node flags).get j = t.get j
      ∧ (t.to_doc node flags).get j = t.get j
      ∧ (t.to_stream node flags).get j = t.get j)
    ∧ (hierSame (t.to_val node v flags) t node
      ∧ hierSame (t.to_keyval node k v flags) t node
      ∧ hierSame (t.to_map node flags) t node
      ∧ hierSame (t.to_seq node flags) t node
      ∧ hierSame (t.to_doc node flags) t node
      ∧ hierSame (t.to_stream node flags) t node)
    ∧ (ctlArenaSame (t.to_val node v flags) t
      ∧ ctlArenaSame (t.to_keyval node k v flags) t
      ∧ ctlArenaSame (t.to_map node flags) t
      ∧ ctlArenaSame (t.to_seq node flags) t
      ∧ ctlArenaSame (t.to_doc node flags) t
      ∧ ctlArenaSame (t.to_stream node flags) t)
    ∧ (((t.to_val node v flags).get node).m_key = NodeScalar.empty
      ∧ ((t.to_map node flags).get node).m_key = NodeScalar.empty
      ∧ ((t.to_seq node flags).get node).m_key = NodeScalar.empty
      ∧ ((t.to_doc node flags).get node).m_key = NodeScalar.empty
      ∧ ((t.to_stream node flags).get node).m_key = NodeScalar.empty
      ∧ ((t.to_keyval node k v flags).get node).m_key = NodeScalar.ofSpan k) := by
  refine ⟨fun j hj => ?_, ?_, ?_, ?_⟩ <;>
    simp [Tree.to_val, Tree.to_keyval, Tree.to_map, Tree.to_seq, Tree.to_doc,
          Tree.to_stream, Tree._set_flags, Tree.upd, Tree.setN, Tree.get,
          hierSame, ctlArenaSame, *]

/-- Witness for C9 at a concrete tree: transitioning node 1 leaves the
root record untouched. -/
theorem C9_to_transitions_frame_witness :
    ((freshTree.to_val 1 Span.empty 0).get 0 = freshTree.get 0) :=
  ((C9_to_transitions_frame freshTree 1 Span.empty Span.empty 0).1 0 (by decide)).1

/-- C4: evaluation of reorder at the failing input.  reorderBugTree is
reachable through reserve, claim and remove only; its pre-order is
0, 1, 4, 2 and its size is 4, yet after reorder() the pre-order walk is
0, 1, 2, 3, 5, 6, 7: the walk strays into free slots instead of visiting
0, 1, 2, 3, because _swap on the free slot 3 runs _free_list_rem, whose
_rem_hierarchy follows the stale free-list prev link of slot 3 (left
pointing at slot 2 when slot 2 was reclaimed from the free list) and
overwrites the live slot 2's next_sibling. -/
theorem C4_reorder_failing_input :
    Tree.preorderList 64 reorderBugTree Tree.root_id = [0, 1, 4, 2]
    ∧ reorderBugTree.m_size = 4
    ∧ (reorderBugTree.get 3).m_prev_sibling = 2
    ∧ reorderBugTree.m_free_head = 3
    ∧ reorderBugTree.type_of 2 ≠ NOTYPE
    ∧ Tree.preorderList 64 (reorderBugTree.reorder 64) Tree.root_id = [0, 1, 2, 3, 5, 6, 7]
    ∧ Tree.preorderList 64 (reorderBugTree.reorder 64) Tree.root_id
        ≠ List.range reorderBugTree.m_size := by
  refine ⟨by decide, by decide, by decide, by decide, by decide, by decide, by decide⟩

/-- C5: evaluation of _swap at the failing inputs.  On the root sequence
with children 1, 2, 3, 4: a single _swap(3, 2) (two live adjacent
siblings, a.prev == b) leaves the sibling chain cyclic - a ten-step walk
from the root's first child repeats 1, 3, 2 and never terminates -
because the a.prev == b branch writes b's next_sibling from b's old prev
instead of a's old next; and _swap(2, 3) twice is not a no-op: slot 3's
next_sibling ends at 1 where it started at 4. -/
theorem C5_swap_failing_input :
    Tree.chainList 10 (swapTree._swap 3 2 20) ((swapTree._swap 3 2 20).first_child 0)
      = [1, 3, 2, 1, 3, 2, 1, 3, 2, 1]
    ∧ (swapTree.get 3).m_next_sibling = 4
    ∧ (((swapTree._swap 2 3 20)._swap 2 3 20).get 3).m_next_sibling = 1 := by
  refine ⟨by decide, by decide, by decide⟩

/-- C2, counterexample: on the spec's own scenario (destination map
a:1, b:2 at handle 1; source map a:9, c:3 at handle 2; insert after the
existing a at handle 3), duplicate_children_no_rep yields a:1, c:3, b:2 -
the existing a wins because rep_pos equals after_pos, and c lands at the
cursor right after a - not the claimed a:9, b:2, c:3. -/
theorem C2_dcnr_example_counterexample :
    Tree.kvList (Tree.duplicate_children_no_rep 64 noRepTree 2 1 3).2
        (Tree.childrenOf 20 (Tree.duplicate_children_no_rep 64 noRepTree 2 1 3).2 1)
      = [(some ['a'], some ['1']), (some ['c'], some ['3']), (some ['b'], some ['2'])]
    ∧ Tree.kvList noRepTree (Tree.childrenOf 20 noRepTree 1)
      = [(some ['a'], some ['1']), (some ['b'], some ['2'])]
    ∧ Tree.kvList noRepTree (Tree.childrenOf 20 noRepTree 2)
      = [(some ['a'], some ['9']), (some ['c'], some ['3'])]
    ∧ Tree.kvList (Tree.duplicate_children_no_rep 64 noRepTree 2 1 3).2
        (Tree.childrenOf 20 (Tree.duplicate_children_no_rep 64 noRepTree 2 1 3).2 1)
      ≠ [(some ['a'], some ['9']), (some ['b'], some ['2']), (some ['c'], some ['3'])] := by
  refine ⟨by decide, by decide, by decide, by decide⟩

/-- C1, counterexample: resolving the map with key a holding an anchored
map (anchor x) whose child c carries anchor y, and key b aliasing star-x,
leaves the duplicated copy of c (handle 4, live in the resolved tree)
with its VALANCH bit and anchor name y, while the three collected record
nodes 1, 2, 3 are cleared. -/
theorem C1_resolve_counterexample :
    Tree.preorderList 16 (anchorTree.resolve 100) Tree.root_id = [0, 1, 2, 3, 4]
    ∧ (anchorTree.resolve 100).has_val_anchor 4 = true
    ∧ (anchorTree.resolve 100).readSpan ((anchorTree.resolve 100).get 4).m_val.anchor
        = some ['y']
    ∧ (anchorTree.resolve 100).has_val_anchor 1 = false
    ∧ (anchorTree.resolve 100).has_val_anchor 2 = false
    ∧ (anchorTree.resolve 100).is_val_ref 3 = false := by
  refine ⟨by decide, by decide, by decide, by decide, by decide, by decide⟩

/-- C6, counterexample: growing the arena from 4 to 8 rewrites node 0's
val scalar and tag spans (reads preserved)  but not its anchor span, which
keeps pointing at the freed old buffer; the anchor read changes from x y
to a dangling read. -/
theorem C6_anchor_not_relocated_counterexample :
    arenaTree.readSpan (arenaTree.get 0).m_val.anchor = some ['x', 'y']
    ∧ (arenaTree.reserve 0 8).valRead 0 = arenaTree.valRead 0
    ∧ (arenaTree.reserve 0 8).readSpan ((arenaTree.reserve 0 8).get 0).m_val.tag
        = arenaTree.readSpan ((arenaTree.get 0)).m_val.tag
    ∧ ((arenaTree.reserve 0 8).get 0).m_val.anchor = (arenaTree.get 0).m_val.anchor
    ∧ (arenaTree.reserve 0 8).readSpan ((arenaTree.reserve 0 8).get 0).m_val.anchor = none
    ∧ (arenaTree.reserve 0 8).readSpan ((arenaTree.reserve 0 8).get 0).m_val.anchor
        ≠ arenaTree.readSpan (arenaTree.get 0).m_val.anchor := by
  refine ⟨by decide, by decide, by decide, by decide, by decide, by decide⟩

/-- C7, counterexample: after reserve(2) on a fresh tree (which claims the
root), the free list is exactly the slot 1, but free_tail is 2 = m_cap:
one past the last slot, neither a valid slot handle nor NONE, and not the
last free slot. -/
theorem C7_free_tail_counterexample :
    (freshTree.reserve 2 0).m_free_tail = 2
    ∧ (freshTree.reserve 2 0).m_cap = 2
    ∧ Tree.chainList 8 (freshTree.reserve 2 0) (freshTree.reserve 2 0).m_free_head = [1]
    ∧ (freshTree.reserve 2 0).m_free_tail ≠ NONE
    ∧ (freshTree.reserve 2 0).m_free_tail ∉
        Tree.chainList 8 (freshTree.reserve 2 0) (freshTree.reserve 2 0).m_free_head := by
  refine ⟨by decide, by decide, by decide, by decide, by decide⟩

/-- C8, counterexample: claiming on a tree of capacity 1 grows the
capacity to 2, not to at least 16 (the 16 floor applies only from
capacity 0); and the first _claim call on a fresh tree returns handle 1,
because the growth path's reserve claims the root (handle 0) itself. -/
theorem C8_claim_counterexample :
    ((freshTree.reserve 1 0)._claim).2.m_cap = 2
    ∧ ¬ 16 ≤ ((freshTree.reserve 1 0)._claim).2.m_cap
    ∧ (freshTree._claim).1 = 1
    ∧ (freshTree._claim).1 ≠ 0 := by
  refine ⟨by decide, by decide, by decide, by decide⟩

/-- C2, amended: for a map destination, when the parent already holds a
child with the source child's key (rep at position rep_pos), one step of
duplicate_children_no_rep behaves as dcnrMergeStep: when after_pos is set
and rep_pos < after_pos the existing entry is removed and the source
child duplicated at the cursor; otherwise the existing entry wins and is
moved to the cursor unless it already is the cursor; and on the spec's
concrete scenario (destination a:1, b:2; source a:9, c:3; insert after a)
the result is a:1, c:3, b:2. -/
theorem C2_dcnr_merge_rules (fuel : Nat) (t : Tree) (i parent after_pos prev : Nat)
    (hi : i ≠ NONE) (hseq : t.is_seq parent = false)
    (hrep : (Tree.repSearch fuel t (t.first_child parent) (t.keyRead i) 0).1 ≠ NONE) :
    (Tree.dcnr_loop (fuel+1) t i parent after_pos prev
      = (let s := dcnrMergeStep fuel t i parent after_pos prev
         Tree.dcnr_loop fuel s.2 (s.2.next_sibling i) parent after_pos s.1))
    ∧ Tree.kvList (Tree.duplicate_children_no_rep 64 noRepTree 2 1 3).2
        (Tree.childrenOf 20 (Tree.duplicate_children_no_rep 64 noRepTree 2 1 3).2 1)
      = [(some ['a'], some ['1']), (some ['c'], some ['3']), (some ['b'], some ['2'])] := by
  constructor
  · simp only [Tree.dcnr_loop, dcnrMergeStep]
    rw [if_neg hi]
    simp only [hseq, Bool.false_eq_true, if_false]
    rw [if_neg (by simpa using hrep)]
  · decide

/-- Witness for C2 at the concrete scenario: processing the first source
child (handle 5, key a) with cursor 3 and after_pos 0. -/
theorem C2_dcnr_merge_rules_witness :
    Tree.dcnr_loop 64 noRepTree 5 1 0 3
      = (let s := dcnrMergeStep 63 noRepTree 5 1 0 3
         Tree.dcnr_loop 63 s.2 (s.2.next_sibling 5) 1 0 s.1) :=
  (C2_dcnr_merge_rules 63 noRepTree 5 1 0 3 (by decide) (by decide) (by decide)).1

theorem ctlEq_refl (t : Tree) : ctlEq t t := ⟨rfl, rfl, rfl, rfl⟩

theorem ctlEq_trans {a b c : Tree} (h1 : ctlEq a b) (h2 : ctlEq b c) : ctlEq a c := by
  obtain ⟨x1, x2, x3, x4⟩ := h1
  obtain ⟨y1, y2, y3, y4⟩ := h2
  exact ⟨x1.trans y1, x2.trans y2, x3.trans y3, x4.trans y4⟩

theorem setN_ctl (t : Tree) (i : Nat) (d : NodeData) : ctlEq (t.setN i d) t :=
  ⟨rfl, rfl, rfl, rfl⟩

theorem upd_ctl (t : Tree) (i : Nat) (f : NodeData → NodeData) : ctlEq (t.upd i f) t :=
  ⟨rfl, rfl, rfl, rfl⟩

theorem foldl_ctl {β : Type} (g : Tree → β → Tree) (hg : ∀ t b, ctlEq (g t b) t) :
    ∀ (l : List β) (t : Tree), ctlEq (l.foldl g t) t := by
  intro l
  induction l with
  | nil => intro t; exact ctlEq_refl t
  | cons b rest ih => intro t; exact ctlEq_trans (ih (g t b)) (hg t b)

theorem clear_ctl (t : Tree) (i : Nat) : ctlEq (t._clear i) t := upd_ctl t i _

theorem clear_range_ctl (t : Tree) (first num : Nat) :
    ctlEq (t._clear_range first num) t := by
  unfold Tree._clear_range
  by_cases h : num = 0
  · simp only [h, if_true]; exact ctlEq_refl t
  · simp only [h, if_false]
    refine ctlEq_trans (upd_ctl _ _ _) ?_
    refine ctlEq_trans (foldl_ctl _ ?_ _ _) (foldl_ctl _ ?_ _ _)
    · intro t k; exact ctlEq_trans (upd_ctl _ _ _) (clear_ctl t _)
    · intro t k; exact setN_ctl t _ _

theorem set_hierarchy_ctl (t : Tree) (a b c : Nat) :
    ctlEq (t._set_hierarchy a b c) t := by
  unfold ctlEq Tree._set_hierarchy
  refine ⟨?_, ?_, ?_, ?_⟩ <;>
    simp only [Tree.upd, Tree.setN, apply_ite Tree.m_free_head, apply_ite Tree.m_free_tail,
               apply_ite Tree.m_cap, apply_ite Tree.m_size, ite_self]

theorem rem_hierarchy_ctl (t : Tree) (i : Nat) :
    ctlEq (t._rem_hierarchy i) t := by
  unfold ctlEq Tree._rem_hierarchy
  refine ⟨?_, ?_, ?_, ?_⟩ <;>
    simp only [Tree.upd, Tree.setN, apply_ite Tree.m_free_head, apply_ite Tree.m_free_tail,
               apply_ite Tree.m_cap, apply_ite Tree.m_size, ite_self]

theorem claim_pop_cap (t : Tree) : (t._claim_pop).2.m_cap = t.m_cap := by
  unfold Tree._claim_pop
  simp only [Tree._clear, Tree.upd, Tree.setN, apply_ite Tree.m_cap, ite_self]

theorem claim_root_cap (t : Tree) : (t._claim_root).m_cap = t.m_cap := by
  unfold Tree._claim_root
  exact ((set_hierarchy_ctl _ _ _ _).2.2.1).trans (claim_pop_cap t)

theorem reserveNodes_cap (t : Tree) (cap : Nat) (h : cap > t.m_cap) :
    (t.reserveNodes cap).m_cap = cap := by
  unfold Tree.reserveNodes
  rw [if_pos h]
  have hs : ∀ u : Tree, (if u.m_size = 0 then u._claim_root else u).m_cap = u.m_cap := by
    intro u
    by_cases hz : u.m_size = 0
    · simp only [hz, if_true, claim_root_cap]
    · simp only [hz, if_false]
  rw [hs]
  rw [(clear_range_ctl _ _ _).2.2.1]

/-- C8, amended: _claim pops the head of the free list, clears the popped
record (type, scalars, parent and child links become empty; the two
sibling links keep the free-list threading until the caller attaches the
node), and returns its handle; when the free list is empty or the buffer
is null it grows the capacity to twice the current capacity, or to 16
when the capacity was zero, and then pops; on a fresh tree the growth
path's reserve claims the root itself, so the root sits at handle 0 with
no parent and the first outer _claim returns handle 1. -/
theorem C8_claim_amended (t : Tree) :
    (t.m_free_head ≠ NONE → t.m_cap ≠ 0 →
      t._claim = t._claim_pop
      ∧ (t._claim_pop).1 = t.m_free_head
      ∧ (t._claim_pop).2.m_size = t.m_size + 1
      ∧ (t._claim_pop).2.m_free_head = (t.get t.m_free_head).m_next_sibling
      ∧ ((t._claim_pop).2).get t.m_free_head
          = ⟨NOTYPE, NodeScalar.empty, NodeScalar.empty, NONE, NONE, NONE,
             (t.get t.m_free_head).m_prev_sibling, (t.get t.m_free_head).m_next_sibling⟩)
    ∧ ((t.m_free_head = NONE ∨ t.m_cap = 0) →
        ((t._claim).2).m_cap = if t.m_cap = 0 then 16 else 2 * t.m_cap)
    ∧ (freshTree._claim).1 = 1
    ∧ (freshTree.reserve 16 0).m_size = 1
    ∧ (freshTree.reserve 16 0).parent 0 = NONE
    ∧ ((freshTree._claim).2).parent 0 = NONE := by
  refine ⟨fun h1 h2 => ⟨?_, rfl, ?_, ?_, ?_⟩, fun h => ?_, by decide, by decide,
          by decide, by decide⟩
  · unfold Tree._claim
    rw [if_neg (by simp [h1, h2])]
  · unfold Tree._claim_pop
    simp only [Tree._clear, Tree.upd, Tree.setN, apply_ite Tree.m_size, ite_self]
  · unfold Tree._claim_pop
    simp only [Tree._clear, Tree.upd, Tree.setN, apply_ite Tree.m_free_head, ite_self]
  · unfold Tree._claim_pop
    simp only [Tree._clear, Tree.upd, Tree.setN, Tree.get,
               apply_ite (fun u : Tree => u.nbuf t.m_free_head), ite_self]
    simp
  · unfold Tree._claim
    rw [if_pos (by rcases h with h | h <;> simp [h])]
    rw [claim_pop_cap]
    by_cases hz : t.m_cap = 0
    · simp only [hz, mul_zero, if_true]
      rw [reserveNodes_cap _ _ (by omega)]
    · have h2 : 2 * t.m_cap ≠ 0 := by omega
      simp only [h2, if_neg hz, if_false]
      rw [reserveNodes_cap _ _ (by omega)]

/-- Witness for C8 on the tree reserve(2) (free list holds slot 1): the
pop path returns slot 1 and doubles nothing. -/
theorem C8_claim_amended_witness :
    (freshTree.reserve 2 0)._claim = (freshTree.reserve 2 0)._claim_pop
    ∧ ((freshTree.reserve 2 0)._claim_pop).1 = (freshTree.reserve 2 0).m_free_head :=
  let h := (C8_claim_amended (freshTree.reserve 2 0)).1 (by decide) (by decide)
  ⟨h.1, h.2.1⟩

theorem take_drop_prefix (old pad : List Char) (o l pos : Nat)
    (h1 : o + l ≤ pos) (h2 : pos ≤ old.length) :
    ((old.take pos ++ pad).drop o).take l = (old.drop o).take l := by
  have hlt : (old.take pos).length = pos := by
    rw [List.length_take]; omega
  rw [List.drop_append_of_le_length (by omega)]
  rw [List.take_append_of_le_length (by rw [List.length_drop, hlt]; omega)]
  rw [List.drop_take]
  rw [List.take_take]
  congr 1
  omega

theorem readSpan_reloc (t : Tree) (acap : Nat) (old : List Char)
    (hgrow : acap > t.m_arena_len) (harena : t.m_arena ≠ 0)
    (hold : t.heap t.m_arena = some old) (hpos : t.m_arena_pos ≤ old.length)
    (s : Span) (hs : spanInUsedArena t s = true) :
    (t.reserveArena acap).readSpan (relocSpan t t.next_buf s) = t.readSpan s := by
  unfold Tree.reserveArena
  rw [if_pos hgrow]
  simp only [harena, bne_iff_ne, ne_eq, not_false_eq_true, if_true, hold]
  cases s with
  | lit c => simp [relocSpan, Tree.in_arena, Tree.readSpan, Tree._relocate_spans]
  | arena b o l =>
    simp only [spanInUsedArena, Bool.and_eq_true, Bool.or_eq_true, bne_iff_ne, ne_eq,
               decide_eq_true_eq] at hs
    have hlt : b < t.next_buf := hs.1
    have hin : b = t.m_arena → o + l ≤ t.m_arena_pos := by
      intro hb2
      rcases hs.2 with h | h
      · exact absurd hb2 h
      · exact h
    by_cases hb : b = t.m_arena
    · subst hb
      simp only [relocSpan, Tree.in_arena, beq_self_eq_true, if_true, Tree.readSpan,
                 Tree._relocate_spans, hold, Option.map_some, if_pos rfl]
      have := take_drop_prefix old (List.replicate (acap - t.m_arena_pos) ' ') o l
        t.m_arena_pos (hin rfl) hpos
      simp [this]
    · simp only [relocSpan, Tree.in_arena]
      rw [if_neg (by simp [hb])]
      simp only [Tree.readSpan, Tree._relocate_spans]
      rw [if_neg (by omega), if_neg hb]

theorem reserveNodes_zero (t : Tree) : t.reserveNodes 0 = t := by
  unfold Tree.reserveNodes
  simp

theorem reserveArena_get_spans (t : Tree) (acap i : Nat)
    (hgrow : acap > t.m_arena_len) (harena : t.m_arena ≠ 0) :
    ((t.reserveArena acap).get i).m_key.scalar
        = relocSpan t t.next_buf ((t.get i).m_key.scalar)
    ∧ ((t.reserveArena acap).get i).m_key.tag
        = relocSpan t t.next_buf ((t.get i).m_key.tag)
    ∧ ((t.reserveArena acap).get i).m_val.scalar
        = relocSpan t t.next_buf ((t.get i).m_val.scalar)
    ∧ ((t.reserveArena acap).get i).m_val.tag
        = relocSpan t t.next_buf ((t.get i).m_val.tag) := by
  unfold Tree.reserveArena
  rw [if_pos hgrow]
  simp [harena, Tree._relocate_spans, Tree.get]

/-- C6, amended: growing the arena via reserve(0, k) preserves the value
returned by every scalar and tag read (of key and val) on every node,
provided those spans are either external or lie within the used arena
prefix: relocation copies the used prefix to the new buffer and rewrites
the key/val scalar and tag spans that pointed into the old arena to the
same offset and length in the new arena.  Anchor spans are not rewritten
(see the companion counterexample). -/
theorem C6_relocation_preserves_reads (t : Tree) (acap i : Nat) (old : List Char)
    (hgrow : acap > t.m_arena_len) (harena : t.m_arena ≠ 0)
    (hold : t.heap t.m_arena = some old) (hpos : t.m_arena_pos ≤ old.length)
    (hks : spanInUsedArena t (t.get i).m_key.scalar = true)
    (hkt : spanInUsedArena t (t.get i).m_key.tag = true)
    (hvs : spanInUsedArena t (t.get i).m_val.scalar = true)
    (hvt : spanInUsedArena t (t.get i).m_val.tag = true) :
    (t.reserve 0 acap).keyRead i = t.keyRead i
    ∧ (t.reserve 0 acap).readSpan ((t.reserve 0 acap).get i).m_key.tag
        = t.readSpan (t.get i).m_key.tag
    ∧ (t.reserve 0 acap).valRead i = t.valRead i
    ∧ (t.reserve 0 acap).readSpan ((t.reserve 0 acap).get i).m_val.tag
        = t.readSpan (t.get i).m_val.tag := by
  have hr : t.reserve 0 acap = t.reserveArena acap := by
    unfold Tree.reserve
    rw [reserveNodes_zero]
  obtain ⟨g1, g2, g3, g4⟩ := reserveArena_get_spans t acap i hgrow harena
  refine ⟨?_, ?_, ?_, ?_⟩
  · unfold Tree.keyRead
    rw [hr, g1]
    exact readSpan_reloc t acap old hgrow harena hold hpos _ hks
  · rw [hr, g2]
    exact readSpan_reloc t acap old hgrow harena hold hpos _ hkt
  · unfold Tree.valRead
    rw [hr, g3]
    exact readSpan_reloc t acap old hgrow harena hold hpos _ hvs
  · rw [hr, g4]
    exact readSpan_reloc t acap old hgrow harena hold hpos _ hvt

/-- Witness for C6 at the concrete arena tree: growing the arena from 4
to 8 preserves the val scalar read of node 0. -/
theorem C6_relocation_preserves_reads_witness :
    (arenaTree.reserve 0 8).valRead 0 = arenaTree.valRead 0 :=
  (C6_relocation_preserves_reads arenaTree 8 0 ['x', 'y', 'z', 'w']
    (by decide) (by decide) (by decide) (by decide)
    (by decide) (by decide) (by decide) (by decide)).2.2.1

theorem land_mask_ref (x : Nat) : (x &&& (1023 ^^^ REFMASK)) &&& REFMASK = 0 := by
  have h : (1023 ^^^ REFMASK) = 63 := by decide
  rw [h, Nat.and_assoc]
  have h2 : (63 &&& REFMASK) = 0 := by decide
  rw [h2, Nat.and_zero]

theorem get_upd (t : Tree) (i j : Nat) (f : NodeData → NodeData) :
    (t.upd j f).get i = if i = j then f (t.get j) else t.get i := by
  unfold Tree.upd Tree.setN Tree.get
  simp

theorem clean_ite (c : Prop) [Decidable c] (t1 t2 : Tree) (i : Nat)
    (h1 : cleanNode t1 i) (h2 : cleanNode t2 i) : cleanNode (if c then t1 else t2) i := by
  split_ifs <;> assumption

theorem clean_of_nbuf_eq (u t : Tree) (i : Nat) (he : u.nbuf i = t.nbuf i)
    (h : cleanNode t i) : cleanNode u i := by
  unfold cleanNode Tree.get at h ⊢
  rw [he]
  exact h

theorem clean_upd_links (t : Tree) (j : Nat) (f : NodeData → NodeData)
    (hf : ∀ d, (f d).m_type = d.m_type ∧ (f d).m_key.anchor = d.m_key.anchor
        ∧ (f d).m_val.anchor = d.m_val.anchor)
    (i : Nat) (h : cleanNode t i) : cleanNode (t.upd j f) i := by
  unfold cleanNode at h ⊢
  rw [get_upd]
  split_ifs with hij
  · subst hij
    obtain ⟨a1, a2, a3⟩ := hf (t.get i)
    rw [a1, a2, a3]
    exact h
  · exact h

theorem clean_ite_upd (c : Prop) [Decidable c] (u : Tree) (x : Nat)
    (f : NodeData → NodeData)
    (hf : ∀ d, (f d).m_type = d.m_type ∧ (f d).m_key.anchor = d.m_key.anchor
        ∧ (f d).m_val.anchor = d.m_val.anchor)
    (i : Nat) (h : cleanNode u i) : cleanNode (if c then u.upd x f else u) i := by
  split_ifs
  · exact clean_upd_links u x f hf i h
  · exact h

theorem clean_mk_head (u : Tree) (x i : Nat) (h : cleanNode u i) :
    cleanNode { u with m_free_head := x } i := clean_of_nbuf_eq _ u i rfl h

theorem clean_mk_tail (u : Tree) (x i : Nat) (h : cleanNode u i) :
    cleanNode { u with m_free_tail := x } i := clean_of_nbuf_eq _ u i rfl h

theorem clean_mk_size (u : Tree) (x i : Nat) (h : cleanNode u i) :
    cleanNode { u with m_size := x } i := clean_of_nbuf_eq _ u i rfl h

theorem clean_ite_mk_tail (c : Prop) [Decidable c] (u : Tree) (x i : Nat)
    (h : cleanNode u i) :
    cleanNode (if c then { u with m_free_tail := x } else u) i := by
  split_ifs
  · exact clean_mk_tail u x i h
  · exact h

theorem clean_rem_hierarchy (t : Tree) (j i : Nat) (h : cleanNode t i) :
    cleanNode (t._rem_hierarchy j) i := by
  unfold Tree._rem_hierarchy
  apply clean_ite_upd
  · exact fun d => ⟨rfl, rfl, rfl⟩
  apply clean_ite_upd
  · exact fun d => ⟨rfl, rfl, rfl⟩
  refine clean_ite _ _ _ _ ?_ h
  apply clean_ite_upd
  · exact fun d => ⟨rfl, rfl, rfl⟩
  apply clean_ite_upd
  · exact fun d => ⟨rfl, rfl, rfl⟩
  exact h

theorem clean_free_list_add (t : Tree) (j i : Nat) (h : cleanNode t i) :
    cleanNode (t._free_list_add j) i := by
  unfold Tree._free_list_add
  apply clean_ite_mk_tail
  apply clean_mk_head
  apply clean_ite_upd
  · exact fun d => ⟨rfl, rfl, rfl⟩
  apply clean_upd_links
  · exact fun d => ⟨rfl, rfl, rfl⟩
  exact h

theorem clean_clear (t : Tree) (j i : Nat) (h : cleanNode t i) :
    cleanNode (t._clear j) i := by
  unfold cleanNode at h ⊢
  unfold Tree._clear
  rw [get_upd]
  split_ifs with hij
  · refine ⟨?_, rfl, rfl⟩
    show NOTYPE &&& REFMASK = 0
    decide
  · exact h

theorem clean_rar (t : Tree) (j i : Nat) (h : cleanNode t i) :
    cleanNode (t.rem_anchor_ref j) i := by
  unfold cleanNode at h ⊢
  unfold Tree.rem_anchor_ref
  rw [get_upd]
  split_ifs with hij
  · exact ⟨land_mask_ref _, rfl, rfl⟩
  · exact h

theorem clean_rar_self (t : Tree) (j : Nat) : cleanNode (t.rem_anchor_ref j) j := by
  unfold cleanNode Tree.rem_anchor_ref
  rw [get_upd]
  simp only [if_pos rfl]
  exact ⟨land_mask_ref _, rfl, rfl⟩

theorem clean_release (t : Tree) (j i : Nat) (h : cleanNode t i) :
    cleanNode (t._release j) i := by
  unfold Tree._release
  apply clean_mk_size
  exact clean_clear _ _ _ (clean_free_list_add _ _ _ (clean_rem_hierarchy _ _ _ h))

theorem clean_remove (fuel : Nat) :
    ∀ (t : Tree) (j i : Nat), cleanNode t i → cleanNode (Tree.remove fuel t j) i := by
  induction fuel with
  | zero => intro t j i h; exact h
  | succ fuel ih =>
    intro t j i h
    unfold Tree.remove
    split_ifs
    · exact clean_release _ _ _ h
    · exact ih _ _ _ (ih _ _ _ h)

theorem clean_cleanup_step (fuel : Nat) (t : Tree) (rd : refdata) (i : Nat)
    (h : cleanNode (t.rem_anchor_ref rd.node) i) :
    cleanNode
      ((fun (u : Tree) (r : refdata) =>
        let u2 := u.rem_anchor_ref r.node
        if r.parent_ref != NONE then
          if u2.type_of r.parent_ref != NOTYPE then Tree.remove fuel u2 r.parent_ref else u2
        else u2) t rd) i := by
  apply clean_ite
  · apply clean_ite
    · exact clean_remove _ _ _ _ h
    · exact h
  · exact h

theorem clean_cleanup_pres (fuel : Nat) :
    ∀ (refs : List refdata) (t : Tree) (i : Nat), cleanNode t i →
      cleanNode (t.resolveCleanup fuel refs) i := by
  intro refs
  induction refs with
  | nil => intro t i h; exact h
  | cons rd rest ih =>
    intro t i h
    unfold Tree.resolveCleanup
    simp only [List.foldl_cons]
    apply ih
    exact clean_cleanup_step fuel t rd i (clean_rar _ _ _ h)

theorem clean_cleanup_all (fuel : Nat) :
    ∀ (refs : List refdata) (t : Tree) (rd : refdata), rd ∈ refs →
      cleanNode (t.resolveCleanup fuel refs) rd.node := by
  intro refs
  induction refs with
  | nil => intro t rd hm; cases hm
  | cons r rest ih =>
    intro t rd hm
    unfold Tree.resolveCleanup
    simp only [List.foldl_cons]
    rcases List.mem_cons.mp hm with he | hm2
    · subst he
      apply clean_cleanup_pres
      exact clean_cleanup_step fuel t rd rd.node (clean_rar_self _ _)
    · exact ih _ rd hm2

/-- C1, amended: after resolve() completes, every node the resolver
collected (every record of the collection pass, whether an anchor record,
an alias record, or an alias-sequence element) carries no KEYREF, VALREF
or anchor bits and no anchor names; the cleanup pass visits exactly these
record nodes, so nodes freshly created by duplication during
materialization are not visited and may retain anchor or ref state (see
the companion counterexample). -/
theorem C1_resolve_clears_records (fuel : Nat) (t : Tree) (rd : refdata)
    (hsz : t.m_size ≠ 0)
    (hm : rd ∈ RR.resolvePass2 fuel t (RR.store fuel t)) :
    cleanNode (t.resolve fuel) rd.node := by
  unfold Tree.resolve
  rw [if_neg hsz]
  by_cases he : (RR.store fuel t).isEmpty
  · exfalso
    rw [List.isEmpty_iff] at he
    rw [he] at hm
    simp [RR.resolvePass2] at hm
  · simp only [he, Bool.false_eq_true, if_false]
    exact clean_cleanup_all fuel _ _ rd hm

/-- Witness for C1 at the concrete anchored tree: the first collected
record (the anchored map at handle 1) is clean after resolve. -/
theorem C1_resolve_clears_records_witness :
    cleanNode (anchorTree.resolve 100) 1 :=
  C1_resolve_clears_records 100 anchorTree ⟨false, 1, npos, npos, NONE, NONE⟩
    (by decide) (by decide)


theorem getD_drop_zero (l : List refdata) (m : Nat) :
    (l.drop m).getD 0 default = l.getD m default := by
  unfold List.getD
  rw [List.get?_drop]
  simp

theorem getD_map_pass2 (fuel : Nat) (t : Tree) (l : List refdata) (k : Nat)
    (hk : k < l.length) :
    (RR.resolvePass2 fuel t l).getD k default
      = (fun rd => if rd.is_ref then { rd with target := RR.lookup_ fuel t l rd } else rd)
          (l.getD k default) := by
  unfold RR.resolvePass2 List.getD
  rw [List.get?_map]
  rw [List.get?_eq_getElem?, List.getElem?_eq_getElem hk]
  simp

theorem connectGo_length (prev count : Nat) :
    ∀ (l : List refdata), (RR.connectGo prev count l).length = l.length := by
  intro l
  induction l generalizing prev count with
  | nil => rfl
  | cons rd rest ih => simp [RR.connectGo, ih]

theorem connectGo_getD (raw : List refdata) :
    ∀ (l : List refdata) (m : Nat), l = raw.drop m →
      ∀ k, k < l.length →
        (RR.connectGo (lastAnchorIdx raw m) m l).getD k default
          = { raw.getD (m + k) default with prev_anchor := lastAnchorIdx raw (m + k) } := by
  intro l
  induction l with
  | nil => intro m hm k hk; simp at hk
  | cons rd rest ih =>
    intro m hm k hk
    have hrd : rd = raw.getD m default := by
      have h0 := getD_drop_zero raw m
      rw [← hm] at h0
      simpa using h0
    have hrest : rest = raw.drop (m + 1) := by
      have hh : (raw.drop m).tail = raw.drop (m + 1) := by
        rw [← List.drop_drop]
        simp [List.drop_one]
      rw [← hm] at hh
      simpa using hh
    cases k with
    | zero =>
      simp only [RR.connectGo, List.getD_cons_zero, Nat.add_zero, ← hrd]
    | succ k =>
      simp only [RR.connectGo, List.getD_cons_succ]
      have hstep : (if !rd.is_ref then m else lastAnchorIdx raw m)
          = lastAnchorIdx raw (m + 1) := by
        rw [hrd]
        rfl
      rw [hstep]
      have hres := ih (m + 1) hrest k (by simpa using hk)
      rw [show m + (k + 1) = (m + 1) + k by omega]
      exact hres

theorem connect_getD (raw : List refdata) (k : Nat) (hk : k < raw.length) :
    (RR.connect raw).getD k default
      = { raw.getD k default with prev_anchor := lastAnchorIdx raw k } := by
  have h := connectGo_getD raw raw 0 (by simp) k (by simpa using hk)
  simpa [RR.connect] using h



theorem lastAnchorIdx_succ (raw : List refdata) (k : Nat) :
    lastAnchorIdx raw (k + 1)
      = if !(raw.getD k default).is_ref then k else lastAnchorIdx raw k := rfl

theorem nearestAnchor_succ (t : Tree) (raw : List refdata) (name : List Char) (k : Nat) :
    nearestAnchor t raw name (k + 1)
      = if !(raw.getD k default).is_ref && t.has_anchor (raw.getD k default).node name
        then (raw.getD k default).node
        else nearestAnchor t raw name k := rfl

theorem lastAnchorIdx_spec (raw : List refdata) :
    ∀ k, k < npos →
      (lastAnchorIdx raw k = npos → ∀ j, j < k → (raw.getD j default).is_ref = true)
      ∧ (lastAnchorIdx raw k ≠ npos →
          lastAnchorIdx raw k < k
          ∧ (raw.getD (lastAnchorIdx raw k) default).is_ref = false
          ∧ ∀ j, lastAnchorIdx raw k < j → j < k → (raw.getD j default).is_ref = true) := by
  intro k
  induction k with
  | zero =>
    intro _
    refine ⟨fun _ j hj => absurd hj (by omega), fun hne => absurd rfl hne⟩
  | succ k ih =>
    intro hklt
    have ihk := ih (by omega)
    by_cases hr : (raw.getD k default).is_ref = true
    · have hval : lastAnchorIdx raw (k + 1) = lastAnchorIdx raw k := by
        rw [lastAnchorIdx_succ, hr]
        rfl
      constructor
      · intro hnp j hj
        rw [hval] at hnp
        rcases Nat.lt_succ_iff_lt_or_eq.mp hj with hlt | he
        · exact ihk.1 hnp j hlt
        · subst he; exact hr
      · intro hnp
        rw [hval] at hnp ⊢
        obtain ⟨h1, h2, h3⟩ := ihk.2 hnp
        refine ⟨by omega, h2, fun j hj1 hj2 => ?_⟩
        rcases Nat.lt_succ_iff_lt_or_eq.mp hj2 with hlt | he
        · exact h3 j hj1 hlt
        · subst he; exact hr
    · have hrf : (raw.getD k default).is_ref = false := by
        cases hb : (raw.getD k default).is_ref
        · rfl
        · exact absurd hb hr
      have hval : lastAnchorIdx raw (k + 1) = k := by
        rw [lastAnchorIdx_succ, hrf]
        rfl
      constructor
      · intro hnp
        rw [hval] at hnp
        exact absurd hnp (by omega)
      · intro _
        rw [hval]
        refine ⟨by omega, hrf, fun j hj1 hj2 => ?_⟩
        omega

theorem nearestAnchor_skip (t : Tree) (raw : List refdata) (name : List Char) :
    ∀ (k m : Nat), m ≤ k →
      (∀ j, m ≤ j → j < k → (raw.getD j default).is_ref = true) →
      nearestAnchor t raw name k = nearestAnchor t raw name m := by
  intro k
  induction k with
  | zero =>
    intro m hm _
    have hz : m = 0 := by omega
    rw [hz]
  | succ k ih =>
    intro m hm hall
    by_cases he : m = k + 1
    · rw [he]
    · have hmk : m ≤ k := by omega
      have hrk : (raw.getD k default).is_ref = true := hall k (by omega) (by omega)
      rw [nearestAnchor_succ, hrk]
      simp only [Bool.not_true, Bool.false_and, if_false]
      exact ih m hmk (fun j h1 h2 => hall j h1 (by omega))



theorem lookupWalk_succ (f : Nat) (t : Tree) (refs : List refdata) (name : List Char)
    (ra : refdata) :
    RR.lookupWalk (f + 1) t refs name ra
      = if ra.prev_anchor = npos then NONE
        else
          if t.has_anchor (refs.getD ra.prev_anchor default).node name
          then (refs.getD ra.prev_anchor default).node
          else RR.lookupWalk f t refs name (refs.getD ra.prev_anchor default) := rfl

theorem lookupWalk_eq (t : Tree) (raw : List refdata) (name : List Char) :
    ∀ k, k ≤ raw.length → raw.length < npos →
      ∀ fuel, k + 1 ≤ fuel → ∀ (ra : refdata), ra.prev_anchor = lastAnchorIdx raw k →
        RR.lookupWalk fuel t (RR.connect raw) name ra = nearestAnchor t raw name k := by
  intro k
  induction k using Nat.strong_induction_on with
  | _ k ih =>
    intro hk hlen fuel hfuel ra hra
    cases fuel with
    | zero => omega
    | succ f =>
      rw [lookupWalk_succ, hra]
      by_cases hnp : lastAnchorIdx raw k = npos
      · rw [if_pos hnp]
        have hall := (lastAnchorIdx_spec raw k (by omega)).1 hnp
        rw [nearestAnchor_skip t raw name k 0 (by omega) (fun j _ hj => hall j hj)]
        rfl
      · rw [if_neg hnp]
        obtain ⟨hjk, hjref, hbetween⟩ := (lastAnchorIdx_spec raw k (by omega)).2 hnp
        set j := lastAnchorIdx raw k with hj
        have hjlen : j < raw.length := by omega
        have hra2 : (RR.connect raw).getD j default
            = { raw.getD j default with prev_anchor := lastAnchorIdx raw j } :=
          connect_getD raw j hjlen
        rw [hra2]
        have hskip : nearestAnchor t raw name k = nearestAnchor t raw name (j + 1) :=
          nearestAnchor_skip t raw name k (j + 1) (by omega)
            (fun i h1 h2 => hbetween i (by omega) h2)
        by_cases hha : t.has_anchor (raw.getD j default).node name = true
        · rw [if_pos hha, hskip, nearestAnchor_succ, hjref]
          simp only [Bool.not_false, Bool.true_and]
          rw [if_pos hha]
        · rw [if_neg hha, hskip, nearestAnchor_succ, hjref]
          simp only [Bool.not_false, Bool.true_and]
          rw [if_neg hha]
          exact ih j hjk (by omega) hlen f (by omega) _ rfl


/-- C3: for every alias record produced by the collection pass (any record
list linked by the store sweep), the lookup pass binds the record's target
to the nearest preceding anchor record - scanning backward in collection
order - whose anchor name equals the alias's textual name, the alias value
with the leading star stripped; the first such anchor found is returned.
nearestAnchor is the spec-side backward linear scan; the code walks the
prev_anchor chain instead, and the two agree. -/
theorem C3_lookup_binds_nearest_anchor (fuel : Nat) (t : Tree) (raw : List refdata)
    (k : Nat) (hk : k < raw.length) (hlen : raw.length < npos) (hfuel : k + 1 ≤ fuel)
    (href : (raw.getD k default).is_ref = true) :
    ((RR.resolvePass2 fuel t (RR.connect raw)).getD k default).target
      = nearestAnchor t raw (RR.refnameOf t ((raw.getD k default).node)) k := by
  have hclen : (RR.connect raw).length = raw.length := by
    unfold RR.connect
    exact connectGo_length npos 0 raw
  rw [getD_map_pass2 fuel t (RR.connect raw) k (by omega)]
  rw [connect_getD raw k hk]
  simp only [href, if_true]
  unfold RR.lookup_
  exact lookupWalk_eq t raw _ k (by omega) hlen fuel hfuel _ rfl

/-- Witness for C3 on the anchored tree's own record list: the alias
record at index 2 resolves to the nearest preceding matching anchor. -/
theorem C3_lookup_binds_nearest_anchor_witness :
    ((RR.resolvePass2 3 anchorTree (RR.connect
        [⟨false, 1, npos, npos, NONE, NONE⟩, ⟨false, 2, npos, npos, NONE, NONE⟩,
         ⟨true, 3, npos, npos, NONE, NONE⟩])).getD 2 default).target
      = nearestAnchor anchorTree
          [⟨false, 1, npos, npos, NONE, NONE⟩, ⟨false, 2, npos, npos, NONE, NONE⟩,
           ⟨true, 3, npos, npos, NONE, NONE⟩]
          (RR.refnameOf anchorTree
            (([⟨false, 1, npos, npos, NONE, NONE⟩, ⟨false, 2, npos, npos, NONE, NONE⟩,
               (⟨true, 3, npos, npos, NONE, NONE⟩ : refdata)].getD 2 default).node)) 2 :=
  C3_lookup_binds_nearest_anchor 3 anchorTree
    [⟨false, 1, npos, npos, NONE, NONE⟩, ⟨false, 2, npos, npos, NONE, NONE⟩,
     ⟨true, 3, npos, npos, NONE, NONE⟩] 2
    (by decide) (by decide) (by decide) (by decide)


/-- The popped free-list head's successor becomes the new head. -/
theorem claim_pop_head (t : Tree) :
    (t._claim_pop).2.m_free_head = (t.get t.m_free_head).m_next_sibling := by
  unfold Tree._claim_pop
  simp only [Tree._clear, Tree.upd, Tree.setN, apply_ite Tree.m_free_head, ite_self]

theorem claim_pop_tail (t : Tree) :
    (t._claim_pop).2.m_free_tail
      = if (t.get t.m_free_head).m_next_sibling = NONE then NONE else t.m_free_tail := by
  unfold Tree._claim_pop
  simp only [Tree._clear, Tree.upd, Tree.setN, apply_ite Tree.m_free_tail]

theorem claim_pop_size (t : Tree) :
    (t._claim_pop).2.m_size = t.m_size + 1 := by
  unfold Tree._claim_pop
  simp only [Tree._clear, Tree.upd, Tree.setN, apply_ite Tree.m_size, ite_self]

theorem claim_root_head (t : Tree) :
    (t._claim_root).m_free_head = (t.get t.m_free_head).m_next_sibling := by
  unfold Tree._claim_root
  exact ((set_hierarchy_ctl _ _ _ _).1).trans (claim_pop_head t)

theorem claim_root_tail (t : Tree) :
    (t._claim_root).m_free_tail
      = if (t.get t.m_free_head).m_next_sibling = NONE then NONE else t.m_free_tail := by
  unfold Tree._claim_root
  exact ((set_hierarchy_ctl _ _ _ _).2.1).trans (claim_pop_tail t)

theorem claim_root_size (t : Tree) :
    (t._claim_root).m_size = t.m_size + 1 := by
  unfold Tree._claim_root
  exact ((set_hierarchy_ctl _ _ _ _).2.2.2).trans (claim_pop_size t)

theorem foldl_get_fixed {β : Type} (g : Tree → β → Tree) (target : Nat) :
    ∀ (l : List β) (t : Tree), (∀ u b, b ∈ l → (g u b).get target = u.get target) →
      ((l.foldl g t).get target) = t.get target := by
  intro l
  induction l with
  | nil => intro t _; rfl
  | cons b bs ih =>
    intro t hg
    rw [List.foldl_cons, ih (g t b) (fun u c hc => hg u c (List.mem_cons_of_mem b hc)),
        hg t b (List.mem_cons_self b bs)]

/-- _clear_range threads the range as a chain: the first slot's next
sibling is its successor (for ranges of at least two slots, so that the
final termination write lands elsewhere). -/
theorem clear_range_get_first (t : Tree) (first num : Nat) (h2 : 2 ≤ num) :
    ((t._clear_range first num).get first).m_next_sibling = first + 1 := by
  unfold Tree._clear_range
  rw [if_neg (by omega)]
  rw [get_upd, if_neg (by omega)]
  obtain ⟨m, rfl⟩ : ∃ m, num = m + 1 := ⟨num - 1, by omega⟩
  rw [List.range_succ_eq_map, List.foldl_cons]
  rw [foldl_get_fixed]
  · simp only [Nat.add_zero]
    rw [get_upd, if_pos rfl]
  · intro u b hb
    obtain ⟨j, _, rfl⟩ := List.mem_map.mp hb
    have hne : first ≠ first + Nat.succ j := by omega
    simp only [Tree._clear]
    rw [get_upd, if_neg hne, get_upd, if_neg hne]

theorem claim_pop_inv (t : Tree) (ht : t.m_free_tail ≠ NONE) :
    ((t._claim_pop).2.m_free_head = NONE ↔ (t._claim_pop).2.m_free_tail = NONE) := by
  rw [claim_pop_head, claim_pop_tail]
  split_ifs with h
  · simp [h]
  · simp [h, ht]

theorem claim_root_inv (t : Tree) (ht : t.m_free_tail ≠ NONE) :
    ((t._claim_root).m_free_head = NONE ↔ (t._claim_root).m_free_tail = NONE) := by
  rw [claim_root_head, claim_root_tail]
  split_ifs with h
  · simp [h]
  · simp [h, ht]

theorem relocate_spans_ctl (t : Tree) (newid : Nat) :
    ctlEq (t._relocate_spans newid) t := ⟨rfl, rfl, rfl, rfl⟩

theorem reserveArena_ctl (t : Tree) (a : Nat) : ctlEq (t.reserveArena a) t := by
  unfold Tree.reserveArena
  refine ⟨?_, ?_, ?_, ?_⟩ <;>
    simp only [apply_ite Tree.m_free_head, apply_ite Tree.m_free_tail,
      apply_ite Tree.m_cap, apply_ite Tree.m_size, Tree._relocate_spans, ite_self]

theorem fresh_inv : freeInv freshTree := by
  refine ⟨by decide, by decide, fun _ => Or.inl rfl, fun _ => ⟨rfl, rfl, rfl⟩⟩

theorem clear_range_head (t : Tree) (f n : Nat) :
    (t._clear_range f n).m_free_head = t.m_free_head := (clear_range_ctl t f n).1

theorem clear_range_tail (t : Tree) (f n : Nat) :
    (t._clear_range f n).m_free_tail = t.m_free_tail := (clear_range_ctl t f n).2.1

theorem clear_range_size (t : Tree) (f n : Nat) :
    (t._clear_range f n).m_size = t.m_size := (clear_range_ctl t f n).2.2.2

theorem freeInv_ctl {u t : Tree} (h : ctlEq u t) (hI : freeInv t) : freeInv u := by
  obtain ⟨h1, h2, h3, h4⟩ := h
  unfold freeInv
  rw [h1, h2, h3, h4]
  exact hI

theorem free_list_add_head (t : Tree) (i : Nat) :
    (t._free_list_add i).m_free_head = i := by
  unfold Tree._free_list_add
  simp only [Tree.upd, Tree.setN, apply_ite Tree.m_free_head, ite_self]

theorem free_list_add_tail (t : Tree) (i : Nat) :
    (t._free_list_add i).m_free_tail
      = if t.m_free_tail = NONE then i else t.m_free_tail := by
  unfold Tree._free_list_add
  simp only [Tree.upd, Tree.setN, apply_ite Tree.m_free_tail,
             apply_ite Tree.m_free_head, ite_self]

theorem reserveNodes_grow_fields (t : Tree) (c : Nat) (hg : c > t.m_cap)
    (hh : t.m_free_head = NONE) (hs : t.m_size ≠ 0) :
    (t.reserveNodes c).m_free_head = t.m_cap ∧ (t.reserveNodes c).m_free_tail = c
      ∧ (t.reserveNodes c).m_size = t.m_size := by
  unfold Tree.reserveNodes
  rw [if_pos hg, if_pos hh]
  simp only [clear_range_size]
  rw [if_neg hs]
  refine ⟨?_, ?_, ?_⟩ <;>
    simp only [clear_range_head, clear_range_tail, clear_range_size]

theorem reserveNodes_zero_fields (t : Tree) (c : Nat) (hc0 : t.m_cap = 0)
    (hh : t.m_free_head = NONE) (hs : t.m_size = 0) (h2 : 2 ≤ c) :
    (t.reserveNodes c).m_free_head = 1 ∧ (t.reserveNodes c).m_free_tail = c := by
  unfold Tree.reserveNodes
  rw [if_pos (by omega), if_pos hh]
  simp only [clear_range_size]
  rw [if_pos hs]
  constructor
  · rw [claim_root_head, clear_range_head]
    simp only [hc0]
    rw [clear_range_get_first _ _ _ (by omega)]
  · rw [claim_root_tail, clear_range_head]
    simp only [hc0]
    rw [clear_range_get_first _ _ _ (by omega)]
    rw [if_neg (by decide), clear_range_tail]

theorem clear_range_cap (t : Tree) (f n : Nat) :
    (t._clear_range f n).m_cap = t.m_cap := (clear_range_ctl t f n).2.2.1

theorem clear_head (t : Tree) (i : Nat) :
    (t._clear i).m_free_head = t.m_free_head := (clear_ctl t i).1

theorem clear_tail (t : Tree) (i : Nat) :
    (t._clear i).m_free_tail = t.m_free_tail := (clear_ctl t i).2.1

theorem clear_cap (t : Tree) (i : Nat) :
    (t._clear i).m_cap = t.m_cap := (clear_ctl t i).2.2.1

theorem rem_hier_head (t : Tree) (i : Nat) :
    (t._rem_hierarchy i).m_free_head = t.m_free_head := (rem_hierarchy_ctl t i).1

theorem rem_hier_tail (t : Tree) (i : Nat) :
    (t._rem_hierarchy i).m_free_tail = t.m_free_tail := (rem_hierarchy_ctl t i).2.1

theorem rem_hier_cap (t : Tree) (i : Nat) :
    (t._rem_hierarchy i).m_cap = t.m_cap := (rem_hierarchy_ctl t i).2.2.1

theorem free_list_add_cap (t : Tree) (i : Nat) :
    (t._free_list_add i).m_cap = t.m_cap := by
  unfold Tree._free_list_add
  simp only [Tree.upd, Tree.setN, apply_ite Tree.m_cap, ite_self]

/-- The tail of reserve's node growth (reallocation, range clear, root
claim) preserves the free-list bracket invariant once the stitched state
has both brackets in range. -/
theorem after_stock (u : Tree) (c : Nat) (hcu : c ≠ NONE) (hcc : c ≠ 0)
    (hh : u.m_free_head ≠ NONE) (ht : u.m_free_tail ≠ NONE) :
    freeInv
      (if (({ u with m_cap := c, nbuf := fun i => if i < u.m_cap then u.nbuf i else zeroNode } : Tree)._clear_range u.m_cap (c - u.m_cap)).m_size = 0
       then (({ u with m_cap := c, nbuf := fun i => if i < u.m_cap then u.nbuf i else zeroNode } : Tree)._clear_range u.m_cap (c - u.m_cap))._claim_root
       else (({ u with m_cap := c, nbuf := fun i => if i < u.m_cap then u.nbuf i else zeroNode } : Tree)._clear_range u.m_cap (c - u.m_cap))) := by
  split_ifs with hs
  · refine ⟨claim_root_inv _ ?_, ?_, ?_, ?_⟩
    · simp only [clear_range_tail]
      exact ht
    · simp only [claim_root_cap, clear_range_cap]
      exact hcu
    · intro h
      simp only [claim_root_size, clear_range_size] at h
      omega
    · intro h0
      simp only [claim_root_cap, clear_range_cap] at h0
      exact absurd h0 hcc
  · refine ⟨?_, ?_, ?_, ?_⟩
    · constructor
      · intro hF
        simp only [clear_range_head] at hF
        exact absurd hF hh
      · intro hF
        simp only [clear_range_tail] at hF
        exact absurd hF ht
    · simp only [clear_range_cap]
      exact hcu
    · intro h
      simp only [clear_range_size] at h hs
      exact absurd h hs
    · intro h0
      simp only [clear_range_cap] at h0
      exact absurd h0 hcc

theorem reserveNodes_inv (t : Tree) (c : Nat) (hI : freeInv t) (hc : c ≠ NONE) :
    freeInv (t.reserveNodes c) := by
  by_cases hg : c > t.m_cap
  · unfold Tree.reserveNodes
    rw [if_pos hg]
    by_cases hh : t.m_free_head = NONE
    · rw [if_pos hh]
      exact after_stock _ c hc (by omega) hI.2.1 hc
    · rw [if_neg hh]
      exact after_stock _ c hc (by omega) hh (fun hF => hh (hI.1.mpr hF))
  · rw [Tree.reserveNodes, if_neg hg]
    exact hI

theorem claim_inv (t : Tree) (hI : freeInv t) : freeInv (t._claim).2 := by
  unfold Tree._claim
  split_ifs with hcond
  · have hc' : t.m_free_head = NONE ∨ t.m_cap = 0 := by simpa using hcond
    by_cases h0 : t.m_cap = 0
    · obtain ⟨hh, ht, hs⟩ := hI.2.2.2 h0
      have hz : 2 * t.m_cap = 0 := by omega
      simp only [if_pos hz]
      obtain ⟨rh, rt⟩ := reserveNodes_zero_fields t 16 h0 hh hs (by omega)
      refine ⟨claim_pop_inv _ ?_, ?_, ?_, ?_⟩
      · rw [rt]; decide
      · rw [claim_pop_cap, reserveNodes_cap t 16 (by omega)]; decide
      · intro h; rw [claim_pop_size] at h; omega
      · intro hc0
        rw [claim_pop_cap, reserveNodes_cap t 16 (by omega)] at hc0
        exact absurd hc0 (by decide)
    · have hh : t.m_free_head = NONE := hc'.resolve_right h0
      have hsz : 2 * t.m_cap ≠ 0 := by omega
      simp only [if_neg hsz]
      have hsN : t.m_size ≠ 0 := by
        intro hs0
        rcases hI.2.2.1 hs0 with hcz | hhd
        · exact h0 hcz
        · exact hhd hh
      obtain ⟨rh, rt, _⟩ := reserveNodes_grow_fields t (2 * t.m_cap) (by omega) hh hsN
      have h2N : 2 * t.m_cap ≠ NONE := by
        have := hI.2.1
        simp only [NONE] at *
        omega
      refine ⟨claim_pop_inv _ ?_, ?_, ?_, ?_⟩
      · rw [rt]; exact h2N
      · rw [claim_pop_cap, reserveNodes_cap t _ (by omega)]; exact h2N
      · intro h; rw [claim_pop_size] at h; omega
      · intro hc0
        rw [claim_pop_cap, reserveNodes_cap t _ (by omega)] at hc0
        exact absurd hc0 hsz
  · have hc' : ¬(t.m_free_head = NONE ∨ t.m_cap = 0) := by simpa using hcond
    push_neg at hc'
    obtain ⟨hh, h0⟩ := hc'
    have ht : t.m_free_tail ≠ NONE := fun hF => hh (hI.1.mpr hF)
    refine ⟨claim_pop_inv t ht, ?_, ?_, ?_⟩
    · rw [claim_pop_cap]; exact hI.2.1
    · intro h; rw [claim_pop_size] at h; omega
    · intro hc0; rw [claim_pop_cap] at hc0; exact absurd hc0 h0

theorem clear_inv (t : Tree) (hI : freeInv t) : freeInv t.clear := by
  unfold Tree.clear
  simp only []
  split
  · rename_i h
    have h0 : t.m_cap ≠ 0 := by simpa [clear_range_cap] using h
    refine ⟨claim_root_inv _ ?_, ?_, ?_, ?_⟩
    · simp only [clear_range_cap]
      exact hI.2.1
    · simp only [claim_root_cap, clear_range_cap]
      exact hI.2.1
    · intro hzz
      simp only [claim_root_size] at hzz
      omega
    · intro hc0
      simp only [claim_root_cap, clear_range_cap] at hc0
      exact absurd hc0 h0
  · rename_i h
    have h0 : t.m_cap = 0 := by
      have := h
      simp [clear_range_cap] at this
      exact this
    refine ⟨Iff.intro (fun _ => rfl) (fun _ => rfl), ?_, ?_, ?_⟩
    · simp only [clear_range_cap]
      exact hI.2.1
    · intro _
      refine Or.inl ?_
      simp only [clear_range_cap]
      exact h0
    · intro _
      exact ⟨rfl, rfl, rfl⟩

theorem release_inv (t : Tree) (i : Nat) (hI : freeInv t) (hilt : i < t.m_cap)
    (hiN : i ≠ NONE) : freeInv (t._release i) := by
  unfold Tree._release
  simp only []
  refine ⟨?_, ?_, ?_, ?_⟩
  · constructor
    · intro hF
      simp only [clear_head, free_list_add_head] at hF
      exact absurd hF hiN
    · intro hF
      simp only [clear_tail, free_list_add_tail, rem_hier_tail] at hF
      split_ifs at hF with hx
      · exact absurd hF hiN
      · exact absurd hF hx
  · intro hF
    simp only [clear_cap, free_list_add_cap, rem_hier_cap] at hF
    exact hI.2.1 hF
  · intro _
    refine Or.inr ?_
    intro hF
    simp only [clear_head, free_list_add_head] at hF
    exact hiN hF
  · intro hc0
    simp only [clear_cap, free_list_add_cap, rem_hier_cap] at hc0
    omega

theorem reserve_inv (t : Tree) (c a : Nat) (hI : freeInv t) (hc : c ≠ NONE) :
    freeInv (t.reserve c a) := by
  unfold Tree.reserve
  exact freeInv_ctl (reserveArena_ctl _ _) (reserveNodes_inv t c hI hc)

/-- The free-list invariant holds in every reachable state. -/
theorem reach_freeInv (t : Tree) (h : Reach t) : freeInv t := by
  induction h with
  | fresh => exact fresh_inv
  | reserveR u c a _ hc ih => exact reserve_inv u c a ih hc
  | clearR u _ ih => exact clear_inv u ih
  | claimR u _ ih => exact claim_inv u ih
  | releaseR u i _ h1 h2 ih => exact release_inv u i ih h1 h2

/-- C7: amended law.  The spec claims m_free_head/m_free_tail bracket the
free list with m_free_tail at the last in-range slot; reserve and clear in
fact set m_free_tail = m_cap, one past the end (see
C7_free_tail_counterexample).  What does hold, in every state reachable
through reserve, claim, release and clear from a default-constructed tree,
is the bracket emptiness law: the head is NONE exactly when the tail is
NONE. -/
theorem C7_free_list_brackets_amended (t : Tree) (h : Reach t) :
    t.m_free_head = NONE ↔ t.m_free_tail = NONE :=
  (reach_freeInv t h).1

/-- Witness for C7 at a concrete reachable state: reserve(2) on a fresh
tree followed by a claim. -/
theorem C7_free_list_brackets_amended_witness :
    ((freshTree.reserve 2 0)._claim).2.m_free_head = NONE
      ↔ ((freshTree.reserve 2 0)._claim).2.m_free_tail = NONE :=
  C7_free_list_brackets_amended _
    (Reach.claimR _ (Reach.reserveR freshTree 2 0 Reach.fresh (by decide)))
